import Mathlib

/-!
# YTLooper: a shallow embedding of `script.js`

The page script loops a segment of a YouTube video.  This development embeds
its two string parsers (`parseTime`, `getVideoId`), the JavaScript primitives
they rest on, and the handlers that drive the external player, and proves
properties of them.

Conventions of the embedding:

* a JavaScript string is the list of its UTF-16 code units (`JSString`);
* a JavaScript number is a `JSNumber`: `NaN`, an infinity, or a finite binary64
  value held as the rational it denotes (`+0` and `-0` are identified: the
  script never divides by a parsed value, so their difference is unobservable);
* every string-to-number conversion rounds the mathematical value of the
  literal to the nearest binary64 (ties to even), as V8 does;
* the YouTube IFrame API is an external collaborator: the state keeps the
  player object the script holds and a log of the calls made to the API, and
  what the API answers (`getVideoData().video_id`, `getCurrentTime()`) is a
  field of the player or an argument of the handler.  The API is taken to be
  loaded when `applyLoop` constructs a player.
-/

namespace YTLooper

/-! ## JavaScript strings -/

/-- A JavaScript string: the sequence of its UTF-16 code units. -/
abbrev JSString := List Nat

/-- UTF-16 code units of one Unicode scalar value. -/
def utf16Char (c : Char) : List Nat :=
  if c.toNat < 65536 then [c.toNat]
  else [55296 + (c.toNat - 65536) / 1024, 56320 + (c.toNat - 65536) % 1024]

/-- The JavaScript string written by a source literal. -/
def utf16 (s : String) : JSString :=
  (s.toList.map utf16Char).flatten

/-- Code units that ECMAScript calls WhiteSpace or LineTerminator: what
`String.prototype.trim`, `parseInt`, `parseFloat`, `Number` and the regular
expression class `\s` strip or match. -/
def isWhiteSpace (c : Nat) : Bool :=
  c == 9 || c == 10 || c == 11 || c == 12 || c == 13 || c == 32 || c == 160 ||
  c == 5760 || (8192 ≤ c && c ≤ 8202) || c == 8232 || c == 8233 || c == 8239 ||
  c == 8287 || c == 12288 || c == 65279

/-- Decimal digit `0`..`9`. -/
def isDigit (c : Nat) : Bool := 48 ≤ c && c ≤ 57

/-- JavaScript `String.prototype.trimStart`. -/
def trimStart (s : JSString) : JSString := s.dropWhile isWhiteSpace

/-- JavaScript `String.prototype.trimEnd`. -/
def trimEnd (s : JSString) : JSString := (s.reverse.dropWhile isWhiteSpace).reverse

/-- JavaScript `String.prototype.trim`. -/
def trim (s : JSString) : JSString := trimEnd (trimStart s)

/-- JavaScript `String.prototype.split` with a one-unit separator: the fields between
the occurrences of `sep` (never an empty list). -/
def split (sep : Nat) : JSString → List JSString
  | [] => [[]]
  | c :: cs =>
    if c = sep then [] :: split sep cs
    else match split sep cs with
      | [] => [[c]]
      | p :: ps => (c :: p) :: ps

/-- JavaScript `String.prototype.indexOf` with a one-unit needle: the first index of `c`,
or `-1`. -/
def indexOf (s : JSString) (c : Nat) : Int :=
  if c ∈ s then (s.indexOf c : Nat) else -1

/-- JavaScript `String.prototype.includes` with a one-unit needle. -/
def includes (s : JSString) (c : Nat) : Bool := decide (c ∈ s)

/-! ## JavaScript numbers -/

/-- A JavaScript Number: `NaN`, `±Infinity`, or a finite binary64 value, held
as the rational it denotes. -/
inductive JSNumber where
  | nan
  | inf (negative : Bool)
  | fin (value : ℚ)
  deriving DecidableEq

/-- Number of binary digits of `n`, by halving at most `fuel` times. -/
def bitLengthAux : Nat → Nat → Nat
  | 0, _ => 0
  | fuel + 1, n => if n = 0 then 0 else bitLengthAux fuel (n / 2) + 1

/-- Number of binary digits of `n` (`0` for `0`). -/
def bitLength (n : Nat) : Nat := bitLengthAux n n

/-- Round to the nearest integer, ties to the even one. -/
def roundHalfEven (q : ℚ) : ℤ :=
  let f := ⌊q⌋
  let r := q - f
  if r < 1 / 2 then f
  else if 1 / 2 < r then f + 1
  else if f % 2 = 0 then f else f + 1

/-- Binary exponent of the unit in the last place of the binary64 binade that
holds `q`: `-1074` for subnormals and the first normal binade, one more per
binade above. -/
def ulpExponent (q : ℚ) : ℤ :=
  ((bitLength ⌊|q| * 2 ^ 1074⌋₊ - 53 : ℕ) : ℤ) - 1074

/-- The Number value for a mathematical value: `q` rounded to the nearest
binary64 (ties to even), overflowing to an infinity. -/
def toDouble (q : ℚ) : JSNumber :=
  let e := ulpExponent q
  let v := (roundHalfEven (|q| / 2 ^ e) : ℚ) * 2 ^ e
  if 2 ^ 1024 ≤ v then .inf (decide (q < 0))
  else .fin (if q < 0 then -v else v)

namespace JSNumber

/-- JavaScript `isNaN` on a Number. -/
def isNaN : JSNumber → Bool
  | nan => true
  | _ => false

/-- JavaScript `*` on Numbers. -/
def mul : JSNumber → JSNumber → JSNumber
  | nan, _ => nan
  | _, nan => nan
  | inf a, inf b => inf (a != b)
  | inf a, fin q => if q = 0 then nan else inf (a != decide (q < 0))
  | fin q, inf a => if q = 0 then nan else inf (a != decide (q < 0))
  | fin a, fin b => toDouble (a * b)

/-- JavaScript `+` on Numbers. -/
def add : JSNumber → JSNumber → JSNumber
  | nan, _ => nan
  | _, nan => nan
  | inf a, inf b => if a = b then inf a else nan
  | inf a, fin _ => inf a
  | fin _, inf b => inf b
  | fin a, fin b => toDouble (a + b)

/-- JavaScript `<` on Numbers (`false` when either is `NaN`). -/
def lt : JSNumber → JSNumber → Bool
  | nan, _ => false
  | _, nan => false
  | inf a, inf b => a && !b
  | inf a, fin _ => a
  | fin _, inf b => !b
  | fin a, fin b => decide (a < b)

/-- JavaScript `>=` on Numbers (`false` when either is `NaN`). -/
def ge : JSNumber → JSNumber → Bool
  | nan, _ => false
  | _, nan => false
  | a, b => !(lt a b)

end JSNumber

/-! ## JavaScript values -/

/-- The JavaScript values the script handles. -/
inductive JSValue where
  | undefined
  | null
  | num (n : JSNumber)
  | str (s : JSString)
  deriving DecidableEq

namespace JSValue

/-- Abstract operation ToBoolean. -/
def toBoolean : JSValue → Bool
  | undefined => false
  | null => false
  | num n => !(n.isNaN || n == .fin 0)
  | str s => !s.isEmpty

end JSValue

/-! ## String-to-number conversions -/

/-- Mathematical value of a run of decimal digits. -/
def digitsValue (ds : JSString) : Nat :=
  ds.foldl (fun acc c => 10 * acc + (c - 48)) 0

/-- Hexadecimal digit. -/
def isHexDigit (c : Nat) : Bool :=
  isDigit c || (65 ≤ c && c ≤ 70) || (97 ≤ c && c ≤ 102)

/-- Value of one digit in a radix up to sixteen. -/
def hexDigitValue (c : Nat) : Nat :=
  if isDigit c then c - 48 else if 65 ≤ c && c ≤ 70 then c - 55 else c - 87

/-- Mathematical value of a run of digits in `radix`. -/
def radixValue (radix : Nat) (ds : JSString) : Nat :=
  ds.foldl (fun acc c => radix * acc + hexDigitValue c) 0

/-- An optional `+` or `-`: whether the sign is negative, and the rest. -/
def scanSign : JSString → Bool × JSString
  | 43 :: rest => (false, rest)
  | 45 :: rest => (true, rest)
  | s => (false, s)

/-- An optional ExponentPart (`e` or `E`, optional sign, at least one digit):
the exponent and the rest; exponent `0` and the input untouched when there
is none. -/
def scanExponent : JSString → ℤ × JSString
  | [] => (0, [])
  | c :: rest =>
    if c = 101 ∨ c = 69 then
      let (negative, r1) := scanSign rest
      let (ds, r2) := r1.span isDigit
      if ds.isEmpty then (0, c :: rest)
      else ((if negative then -(digitsValue ds : ℤ) else (digitsValue ds : ℤ)), r2)
    else (0, c :: rest)

/-- The code units of `Infinity`. -/
def infinityLiteral : JSString := [73, 110, 102, 105, 110, 105, 116, 121]

/-- The longest prefix that is a StrUnsignedDecimalLiteral: its mathematical
value (`none` for `Infinity`) and the rest of the input; `none` when no
prefix is one. -/
def scanUnsignedDecimal (s : JSString) : Option (Option ℚ × JSString) :=
  if infinityLiteral.isPrefixOf s then some (none, s.drop 8)
  else
    let (ip, r1) := s.span isDigit
    match r1 with
    | 46 :: r2 =>
      let (fp, r3) := r2.span isDigit
      if ip.isEmpty && fp.isEmpty then none
      else
        let (e, r4) := scanExponent r3
        some (some (((digitsValue ip : ℚ) + (digitsValue fp : ℚ) / 10 ^ fp.length) * 10 ^ e), r4)
    | _ =>
      if ip.isEmpty then none
      else
        let (e, r4) := scanExponent r1
        some (some ((digitsValue ip : ℚ) * 10 ^ e), r4)

/-- The Number for a signed magnitude read from a literal. -/
def signedNumber (negative : Bool) : Option ℚ → JSNumber
  | none => .inf negative
  | some q => toDouble (if negative then -q else q)

/-- The longest prefix that is a StrDecimalLiteral (an optional sign and an
unsigned literal): its Number and the rest. -/
def scanDecimal (s : JSString) : Option (JSNumber × JSString) :=
  let (negative, r) := scanSign s
  match scanUnsignedDecimal r with
  | none => none
  | some (m, rest) => some (signedNumber negative m, rest)

/-- A NonDecimalIntegerLiteral: `0x`, `0o` or `0b` (either case) followed by
at least one digit of that radix and nothing else. -/
def nonDecimalLiteral (s : JSString) : Option JSNumber :=
  match s with
  | 48 :: p :: ds =>
    if (p = 120 ∨ p = 88) ∧ !ds.isEmpty ∧ ds.all isHexDigit then
      some (toDouble (radixValue 16 ds))
    else if (p = 111 ∨ p = 79) ∧ !ds.isEmpty ∧ ds.all (fun c => 48 ≤ c && c ≤ 55) then
      some (toDouble (radixValue 8 ds))
    else if (p = 98 ∨ p = 66) ∧ !ds.isEmpty ∧ ds.all (fun c => c == 48 || c == 49) then
      some (toDouble (radixValue 2 ds))
    else none
  | _ => none

/-- Abstract operation StringToNumber (what `Number(string)` and the coercion
inside the global `isNaN` compute): the whole trimmed string must be a
literal; the empty string is `0`. -/
def stringToNumber (s : JSString) : JSNumber :=
  let t := trim s
  if t.isEmpty then .fin 0
  else match nonDecimalLiteral t with
    | some n => n
    | none =>
      match scanDecimal t with
      | some (n, []) => n
      | _ => .nan

namespace JSValue

/-- Abstract operation ToNumber. -/
def toNumber : JSValue → JSNumber
  | undefined => .nan
  | null => .fin 0
  | num n => n
  | str s => stringToNumber s

/-- JavaScript `a >= b` on the values the script compares (numbers, `null`,
`undefined`): both sides go through ToNumber. -/
def ge (a b : JSValue) : Bool := (toNumber a).ge (toNumber b)

end JSValue

/-- The global `isNaN(value)`: ToNumber, then the NaN test. -/
def isNaN (v : JSValue) : Bool := v.toNumber.isNaN

/-- The global `parseFloat(string)`: leading white space is skipped and the
longest prefix that is a decimal literal is read; `NaN` when there is none. -/
def parseFloat (s : JSString) : JSNumber :=
  match scanDecimal (trimStart s) with
  | some (n, _) => n
  | none => .nan

/-- The global `parseInt(string, 10)`: leading white space is skipped, then an
optional sign and the longest run of decimal digits; `NaN` when the run is
empty. -/
def parseInt10 (s : JSString) : JSNumber :=
  let (negative, r) := scanSign (trimStart s)
  let ds := r.takeWhile isDigit
  if ds.isEmpty then .nan
  else toDouble (if negative then -(digitsValue ds : ℚ) else (digitsValue ds : ℚ))

/-! ## The time parser (`script.js`, lines 31-48) -/

/-- The code unit of `:`. -/
def colon : Nat := 58

/-- Source function `parseTime`: a time string (`MM:SS` or seconds) to seconds,
or `null`. -/
def parseTime (timeString : JSString) : JSValue :=
  if !(JSValue.str timeString).toBoolean then .null
  else
    let timeString := trim timeString
    if !isNaN (.str timeString) && indexOf timeString colon == -1 then
      .num (parseFloat timeString)
    else
      let parts := split colon timeString
      if parts.length = 2 then
        let minutes := parseInt10 (parts.getD 0 [])
        let seconds := parseInt10 (parts.getD 1 [])
        if !minutes.isNaN && !seconds.isNaN then
          .num ((minutes.mul (.fin 60)).add seconds)
        else .null
      else .null

/-! ## Regular expressions

The fragment of ECMAScript regular expressions that the source uses, with the
backtracking order of the language: alternatives left to right, greedy
quantifiers longest first, lazy ones shortest first.  Quantifiers are applied
to character classes only, as in the source expression. -/

/-- Regular expressions over code units. -/
inductive Regex where
  | empty
  | unit (p : Nat → Bool)
  | seq (r s : Regex)
  | alt (r s : Regex)
  | star (p : Nat → Bool)
  | lazyStar (p : Nat → Bool)
  | group (r : Regex)

/-- Greedy `p*` followed by the continuation `k`: the longest run first. -/
def starGreedy {α : Type} (p : Nat → Bool) : JSString → (JSString → Option α) → Option α
  | [], k => k []
  | c :: cs, k =>
    if p c then (starGreedy p cs k).orElse (fun _ => k (c :: cs))
    else k (c :: cs)

/-- Lazy `p*?` followed by the continuation `k`: the shortest run first. -/
def starLazy {α : Type} (p : Nat → Bool) : JSString → (JSString → Option α) → Option α
  | [], k => k []
  | c :: cs, k =>
    (k (c :: cs)).orElse (fun _ => if p c then starLazy p cs k else none)

namespace Regex

/-- The backtracking matcher: `run r s cap k` matches `r` at the start of `s`
and hands the rest of the input and the text of capturing group 1 to the
continuation `k`; the first success in priority order is the result. -/
def run {α : Type} : Regex → JSString → Option JSString →
    (JSString → Option JSString → Option α) → Option α
  | empty, s, cap, k => k s cap
  | unit p, s, cap, k =>
    match s with
    | [] => none
    | c :: cs => if p c then k cs cap else none
  | seq r₁ r₂, s, cap, k => run r₁ s cap (fun s₁ cap₁ => run r₂ s₁ cap₁ k)
  | alt r₁ r₂, s, cap, k => (run r₁ s cap k).orElse (fun _ => run r₂ s cap k)
  | star p, s, cap, k => starGreedy p s (fun s₁ => k s₁ cap)
  | lazyStar p, s, cap, k => starLazy p s (fun s₁ => k s₁ cap)
  | group r, s, cap, k =>
    run r s cap (fun s₁ _ => k s₁ (some (s.take (s.length - s₁.length))))

/-- The match of `r` in `s` that `String.prototype.match` reports for a
non-global expression: the leftmost start at which the matcher succeeds.
The result is the text of group 1 (`none` inside: the group took no part). -/
def exec (r : Regex) : JSString → Option (Option JSString)
  | [] => run r [] none (fun _ cap => some cap)
  | c :: cs => (run r (c :: cs) none (fun _ cap => some cap)).orElse (fun _ => exec r cs)

/-- A literal string. -/
def lit : JSString → Regex
  | [] => empty
  | c :: cs => seq (unit (fun x => x == c)) (lit cs)

/-- Greedy `r?`. -/
def opt (r : Regex) : Regex := alt r empty

/-- Greedy `p+` for a class `p`. -/
def plus (p : Nat → Bool) : Regex := seq (unit p) (star p)

/-- Exactly `n` repetitions. -/
def rep : Nat → Regex → Regex
  | 0, _ => empty
  | n + 1, r => seq r (rep n r)

end Regex

/-! ## The reference extractor (`script.js`, lines 55-64) -/

/-- The code unit of `.`. -/
def dot : Nat := 46

/-- The code unit of `/`. -/
def slash : Nat := 47

/-- Class `[a-zA-Z0-9_-]`. -/
def isIdUnit (c : Nat) : Bool :=
  (97 ≤ c && c ≤ 122) || (65 ≤ c && c ≤ 90) || (48 ≤ c && c ≤ 57) || c == 95 || c == 45

/-- Class `\S`. -/
def isNonSpace (c : Nat) : Bool := !isWhiteSpace c

/-- Class `[^\/\n\s]`. -/
def isSegmentUnit (c : Nat) : Bool := !(c == slash || c == 10 || isWhiteSpace c)

/-- Class `[?&]`. -/
def isQueryMark (c : Nat) : Bool := c == 63 || c == 38

open Regex in
/-- The optional scheme `(?:https?:\/\/)?`. -/
def schemeRegex : Regex :=
  opt (seq (lit (utf16 "http")) (seq (opt (lit (utf16 "s"))) (lit (utf16 "://"))))

open Regex in
/-- The optional host prefix `(?:www\.)?`. -/
def wwwRegex : Regex := opt (lit (utf16 "www."))

open Regex in
/-- The path alternatives after `youtube.com/`:
`(?:[^\/\n\s]+\/\S+\/|(?:v|e(?:mbed)?)\/|\S*?[?&]v=)`. -/
def pathRegex : Regex :=
  alt (seq (plus isSegmentUnit) (seq (lit (utf16 "/")) (seq (plus isNonSpace) (lit (utf16 "/")))))
  (alt (seq (alt (lit (utf16 "v")) (seq (lit (utf16 "e")) (opt (lit (utf16 "mbed"))))) (lit (utf16 "/")))
       (seq (lazyStar isNonSpace) (seq (unit isQueryMark) (lit (utf16 "v=")))))

open Regex in
/-- The host alternatives `(?:youtube\.com\/(?:...)|youtu\.be\/)`. -/
def hostRegex : Regex :=
  alt (seq (lit (utf16 "youtube.com/")) pathRegex) (lit (utf16 "youtu.be/"))

open Regex in
/-- The capturing group `([a-zA-Z0-9_-]{11})`. -/
def idGroup : Regex := group (rep 11 (unit isIdUnit))

open Regex in
/-- The source expression
`(?:https?:\/\/)?(?:www\.)?(?:youtube\.com\/(?:[^\/\n\s]+\/\S+\/|(?:v|e(?:mbed)?)\/|\S*?[?&]v=)|youtu\.be\/)([a-zA-Z0-9_-]{11})`. -/
def videoIdRegex : Regex :=
  seq schemeRegex (seq wwwRegex (seq hostRegex idGroup))

/-- Source function `getVideoId`: the video id of a URL or bare id, `none` for
`null`.  (`match[1]` is `undefined` only when group 1 took no part in the
match; that result is falsy like `null` and is returned as `none` too.) -/
def getVideoId (url : JSString) : Option JSString :=
  if !(JSValue.str url).toBoolean then none
  else if url.length = 11 && !includes url dot && !includes url slash then some url
  else
    match videoIdRegex.exec url with
    | some m => m
    | none => none

/-! ## The page state and the handlers (`script.js`, lines 70-205) -/

/-- Content of the error region: set through `textContent` or `innerHTML`. -/
inductive Display where
  | text (s : JSString)
  | html (s : JSString)
  deriving DecidableEq

/-- A live `YT.Player` object: its identity and the id that
`getVideoData().video_id` reports. -/
structure Player where
  handle : Nat
  videoId : JSString
  deriving DecidableEq

/-- Calls made to the external player API. -/
inductive Command where
  | construct (handle : Nat) (videoId : JSString) (playsinline autoplay : Nat) (start : JSValue)
  | seekTo (handle : Nat) (seconds : JSValue) (allowSeekAhead : Bool)
  | playVideo (handle : Nat)
  | destroy (handle : Nat)
  deriving DecidableEq

/-- The globals of the script, the DOM fields it reads and writes, the
interval timers of the page and the log of calls to the player API. -/
structure State where
  player : Option Player
  loopInterval : Option Nat
  timers : List Nat
  nextTimer : Nat
  nextPlayer : Nat
  videoUrlInput : JSString
  startTimeInput : JSString
  endTimeInput : JSString
  errorMessage : Display
  commands : List Command
  deriving DecidableEq

/-- Source function `showError`. -/
def showError (s : State) (message : JSString) : State :=
  { s with errorMessage := .text message }

/-- Source function `clearError`. -/
def clearError (s : State) : State :=
  { s with errorMessage := .text [] }

/-- The call `clearInterval(loopInterval)`: the timer with that handle, if
any, stops; the variable keeps its value. -/
def clearLoopInterval (s : State) : State :=
  match s.loopInterval with
  | none => s
  | some h => { s with timers := s.timers.filter (fun t => t != h) }

/-- The statement `loopInterval = setInterval(checkLoop, 250)`: a new timer
starts and its handle is stored. -/
def setLoopInterval (s : State) : State :=
  { s with loopInterval := some s.nextTimer, timers := s.timers ++ [s.nextTimer],
           nextTimer := s.nextTimer + 1 }

/-- Record a call to the player API. -/
def issue (s : State) (c : Command) : State :=
  { s with commands := s.commands ++ [c] }

/-- Message of the first validation step. -/
def invalidReferenceMessage : JSString := utf16 "Invalid YouTube URL or Video ID."

/-- Message of the second validation step. -/
def invalidTimeMessage : JSString := utf16 "Invalid time format. Please use MM:SS or seconds."

/-- Message of the third validation step. -/
def startNotBeforeEndMessage : JSString := utf16 "Start time must be less than end time."

/-- The statement `player = new YT.Player(...)` of `applyLoop`. -/
def constructPlayer (s : State) (videoId : JSString) (startTime : JSValue) : State :=
  { issue s (.construct s.nextPlayer videoId 1 1 startTime) with
    player := some { handle := s.nextPlayer, videoId := videoId },
    nextPlayer := s.nextPlayer + 1 }

/-- Source function `applyLoop`, reading the three inputs from the state. -/
def applyLoop (s : State) : State :=
  let s := clearError s
  let s := clearLoopInterval s
  let videoId := getVideoId s.videoUrlInput
  let startTime := parseTime s.startTimeInput
  let endTime := parseTime s.endTimeInput
  match videoId with
  | none => showError s invalidReferenceMessage
  | some videoId =>
    if !(JSValue.str videoId).toBoolean then showError s invalidReferenceMessage
    else if startTime = .null || endTime = .null then showError s invalidTimeMessage
    else if startTime.ge endTime then showError s startNotBeforeEndMessage
    else
      match s.player with
      | some p =>
        if p.videoId = videoId then
          issue (issue s (.seekTo p.handle startTime true)) (.playVideo p.handle)
        else constructPlayer (issue s (.destroy p.handle)) videoId startTime
      | none => constructPlayer s videoId startTime

/-- The states a player reports in a state-change event (`YT.PlayerState`). -/
inductive PlayerState where
  | unstarted
  | ended
  | playing
  | paused
  | buffering
  | cued
  deriving DecidableEq

/-- Source function `checkLoop`, the body of a tick.  `getCurrentTime` is what
the player offers when the tick runs: `none` when `player.getCurrentTime` is
not a function, else the value the call returns. -/
def checkLoop (s : State) (getCurrentTime : Option JSValue) : State :=
  let startTime := parseTime s.startTimeInput
  let endTime := parseTime s.endTimeInput
  match s.player, getCurrentTime with
  | some p, some t =>
    if t.ge endTime then issue s (.seekTo p.handle startTime true) else s
  | _, _ => s

/-- The `onStateChange` handler that `applyLoop` registers. -/
def onStateChange (s : State) (data : PlayerState) : State :=
  if data = .playing then setLoopInterval s else clearLoopInterval s

/-- Message for an error code outside the table. -/
def unknownErrorMessage : JSString := utf16 "An unknown error occurred with the video player."

/-- Message for error code 2. -/
def invalidIdMessage : JSString := utf16 "Invalid video ID. Please check the URL or ID."

/-- Message for error code 5. -/
def html5ErrorMessage : JSString := utf16 "An HTML5 player error occurred."

/-- Message for error code 100. -/
def notFoundMessage : JSString :=
  utf16 "Video not found. It may be private or have been removed."

/-- The code unit of the double quote. -/
def quote : Nat := 34

/-- Message for error codes 101 and 150, with the link to `videoUrl`. -/
def embeddingDisabledMessage (videoUrl : JSString) : JSString :=
  utf16 "The video owner has disabled playback on other websites. <a href=" ++ [quote]
    ++ videoUrl ++ [quote] ++ utf16 " target=" ++ [quote] ++ utf16 "_blank" ++ [quote]
    ++ utf16 ">Watch on YouTube</a>"

/-- Source function `onPlayerError` on the error code `data`.  With no player
the call `player.getVideoData()` throws: the result is then `Except.error`
with the state at the throw (the timer is already cleared). -/
def onPlayerError (s : State) (data : Int) : Except State State :=
  let s := clearLoopInterval s
  match s.player with
  | none => .error s
  | some p =>
    let videoUrl := utf16 "https://www.youtube.com/watch?v=" ++ p.videoId
    let errorMessage :=
      if data = 2 then invalidIdMessage
      else if data = 5 then html5ErrorMessage
      else if data = 100 then notFoundMessage
      else if data = 101 ∨ data = 150 then embeddingDisabledMessage videoUrl
      else unknownErrorMessage
    .ok { s with errorMessage := .html errorMessage }

/-- Source function `stopAndClear`. -/
def stopAndClear (s : State) : State :=
  let s := clearLoopInterval s
  let s := match s.player with
    | some p => { issue s (.destroy p.handle) with player := none }
    | none => s
  clearError { s with videoUrlInput := [], startTimeInput := [], endTimeInput := [] }

/-! ## Notions of the specification

Definitions that follow the words of the specification rather than the code;
the theorems below compare them with the functions above. -/

/-- Spec-side: the number written by a run of decimal digits, most
significant first. -/
def decimalValue (ds : JSString) : ℕ :=
  Nat.ofDigits 10 ((ds.map (fun c => c - 48)).reverse)

/-- Spec-side: a non-empty run of decimal digits. -/
def isDigitRun (ds : JSString) : Bool := !ds.isEmpty && ds.all isDigit

/-- Spec-side: an integer field, that is an optional sign followed by a
non-empty run of decimal digits and nothing else. -/
def isIntegerNumeral (f : JSString) : Bool :=
  match f with
  | [] => false
  | c :: ds => if c = 43 ∨ c = 45 then isDigitRun ds else isDigitRun (c :: ds)

/-- Spec-side: the integer an integer field denotes. -/
def integerValue (f : JSString) : ℤ :=
  match f with
  | [] => 0
  | c :: ds =>
    if c = 45 then -(decimalValue ds : ℤ)
    else if c = 43 then (decimalValue ds : ℤ)
    else (decimalValue (c :: ds) : ℤ)

/-- Spec-side: a parsed bound is invalid when the parser answered `null`. -/
def isInvalidBound (v : JSValue) : Bool := v == .null

/-- The page as loaded: no player, no timer, empty inputs and error region. -/
def initialState : State :=
  { player := none, loopInterval := none, timers := [], nextTimer := 1, nextPlayer := 1,
    videoUrlInput := [], startTimeInput := [], endTimeInput := [],
    errorMessage := .text [], commands := [] }

/-- A page that is looping the video `dQw4w9WgXcQ` on player `0` with timer `0`
active, with the given texts in the three inputs. -/
def loopingState (url startTime endTime : JSString) : State :=
  { player := some { handle := 0, videoId := utf16 "dQw4w9WgXcQ" },
    loopInterval := some 0, timers := [0], nextTimer := 1, nextPlayer := 1,
    videoUrlInput := url, startTimeInput := startTime, endTimeInput := endTime,
    errorMessage := .text [],
    commands := [.construct 0 (utf16 "dQw4w9WgXcQ") 1 1 (.num (.fin 0))] }

/-- Spec-side: the LoopConfig invariant `0 <= startSeconds < endSeconds` on a
pair of parsed bounds. -/
def satisfiesLoopConfigInvariant (startTime endTime : JSValue) : Bool :=
  match startTime, endTime with
  | .num a, .num b => a.ge (.fin 0) && a.lt b
  | _, _ => false

/-- Spec-side: `applyLoop` accepted the inputs, that is it went past
validation and issued a command (a seek, or the construction of a player). -/
def accepts (s : State) : Bool := decide ((applyLoop s).commands ≠ s.commands)

/-- Spec-side: the whole string is a decimal numeral (optional sign; digits
with an optional fraction and exponent, or `Infinity`). -/
def isDecimalNumeral (t : JSString) : Bool :=
  match scanDecimal t with
  | some (_, []) => true
  | _ => false

/-- Spec-side: the whole string is a `0x`, `0o` or `0b` integer literal. -/
def isRadixNumeral (t : JSString) : Bool := (nonDecimalLiteral t).isSome

/-- Spec-side: exactly two colon-separated integer fields. -/
def isMinutesSeconds (t : JSString) : Bool :=
  match split colon t with
  | [fm, fs] => isIntegerNumeral fm && isIntegerNumeral fs
  | _ => false

/-- Spec-side: the field begins, after optional white space and an optional
sign, with a decimal digit (anything may follow). -/
def startsWithInteger (f : JSString) : Bool :=
  match (scanSign (trimStart f)).2 with
  | c :: _ => isDigit c
  | [] => false

/-- Spec-side: exactly two colon-separated fields, each beginning with an
integer. -/
def isLenientMinutesSeconds (t : JSString) : Bool :=
  match split colon t with
  | [fm, fs] => startsWithInteger fm && startsWithInteger fs
  | _ => false

/-- Code units that can occur in a decimal numeral: digits, signs, the point,
the exponent mark and the letters of `Infinity`. -/
def isNumeralUnit (c : Nat) : Bool :=
  isDigit c || c == 43 || c == 45 || c == 46 || c == 101 || c == 69 ||
  infinityLiteral.contains c

/-! ## Events and reachable states -/

/-- What can happen to the page: the user edits the three inputs or clicks one
of the two buttons, the player reports a state change or an error, or an
interval timer ticks (with what `getCurrentTime` offers at that time). -/
inductive Event where
  | setInputs (url startTime endTime : JSString)
  | applyLoop
  | stopAndClear
  | stateChange (data : PlayerState)
  | error (code : Int)
  | tick (getCurrentTime : Option JSValue)

/-- The state after one event.  A handler that throws leaves the state it had
reached at the throw. -/
def step (s : State) : Event → State
  | .setInputs url startTime endTime =>
    { s with videoUrlInput := url, startTimeInput := startTime, endTimeInput := endTime }
  | .applyLoop => applyLoop s
  | .stopAndClear => stopAndClear s
  | .stateChange data => onStateChange s data
  | .error code =>
    match onPlayerError s code with
    | .ok s₁ => s₁
    | .error s₁ => s₁
  | .tick getCurrentTime => checkLoop s getCurrentTime

/-- The state after a sequence of events on the page as loaded. -/
def runEvents (events : List Event) : State := events.foldl step initialState

/-- A state the page can be in. -/
def Reachable (s : State) : Prop := ∃ events, runEvents events = s

/-- The sessions that are live after one more call to the player API. -/
def liveAfter (live : List Nat) : Command → List Nat
  | .construct handle _ _ _ _ => live ++ [handle]
  | .destroy handle => live.filter (fun h => h != handle)
  | _ => live

/-- Spec-side: the sessions that are live after a log of calls: constructed
and not destroyed since. -/
def liveSessions (commands : List Command) : List Nat := commands.foldl liveAfter []

/-- Spec-side: the Loop Controller is Active when the timer that
`loopInterval` holds is running. -/
def loopActive (s : State) : Bool :=
  match s.loopInterval with
  | some h => s.timers.contains h
  | none => false

/-- Spec-side: `applyLoop` would reject the inputs of the state: the reference
is invalid, a bound is invalid, or `start >= end`. -/
def failsValidation (s : State) : Bool :=
  (getVideoId s.videoUrlInput).isNone
  || isInvalidBound (parseTime s.startTimeInput)
  || isInvalidBound (parseTime s.endTimeInput)
  || (parseTime s.startTimeInput).ge (parseTime s.endTimeInput)

/-- Spec-side: a seek command. -/
def Command.isSeek : Command → Bool
  | .seekTo _ _ _ => true
  | _ => false

/-- The events of a session that reports `playing` twice in a row: the user
asks to loop `dQw4w9WgXcQ` from `5` to `30`, then the player reports
`playing` two times. -/
def playingTwice : List Event :=
  [.setInputs (utf16 "dQw4w9WgXcQ") (utf16 "5") (utf16 "30"), .applyLoop,
   .stateChange .playing, .stateChange .playing]

/-- Spec-side: the link `<a href="url"` to `url` in a message. -/
def linkTo (url : JSString) : JSString := utf16 "<a href=" ++ [quote] ++ url ++ [quote]

/-- Spec-side: the watch URL of a video id. -/
def watchUrl (videoId : JSString) : JSString :=
  utf16 "https://www.youtube.com/watch?v=" ++ videoId

/-- Spec-side: at most one session is ever live, and the live one is the
player the script holds: after every prefix of the log at most one session is
live, and after the whole log the live sessions are exactly the handle of
`player` (none when there is no player). -/
def SingleSession (s : State) : Prop :=
  liveSessions s.commands = (s.player.map (fun p => p.handle)).toList
  ∧ ∀ l, l <+: s.commands → (liveSessions l).length ≤ 1

/-- Spec-side: every running timer is the one `loopInterval` holds (the
at-most-one-timer invariant of the specification). -/
def TimerTracked (s : State) : Prop := ∀ t ∈ s.timers, s.loopInterval = some t

/-- The events that lead to a page that shows `dQw4w9WgXcQ` and is asked for
another video: the user loops `dQw4w9WgXcQ` from `5` to `30`, the player
plays, then the user types the watch URL of `aaaaaaaaaaa`. -/
def otherVideoRequested : List Event :=
  [.setInputs (utf16 "dQw4w9WgXcQ") (utf16 "5") (utf16 "30"), .applyLoop,
   .stateChange .playing,
   .setInputs (utf16 "https://www.youtube.com/watch?v=aaaaaaaaaaa") (utf16 "7") (utf16 "30")]

/-- Spec-side: timer `h` runs but the script has lost its handle: `loopInterval`
holds another value, so no `clearInterval(loopInterval)` can stop it. -/
def Leaked (s : State) (h : Nat) : Prop :=
  h ∈ s.timers ∧ s.loopInterval ≠ some h ∧ h < s.nextTimer

/-! # Theorems -/

/-! ## Rounding to binary64 -/

theorem bitLengthAux_le (fuel : Nat) : ∀ (n b : Nat), n < 2 ^ b → bitLengthAux fuel n ≤ b := by
  induction fuel with
  | zero => intro n b _; simp [bitLengthAux]
  | succ f ih =>
    intro n b h
    unfold bitLengthAux
    split
    · exact Nat.zero_le _
    · rename_i hn
      cases b with
      | zero => simp at h; omega
      | succ b =>
        have : n / 2 < 2 ^ b := by
          rw [Nat.div_lt_iff_lt_mul (by norm_num)]
          rw [pow_succ] at h; exact h
        have := ih (n / 2) b this
        omega

theorem roundHalfEven_intCast (k : ℤ) : roundHalfEven (k : ℚ) = k := by
  simp [roundHalfEven]

theorem ulpExponent_intCast (n : ℤ) (h : |n| < 2 ^ 53) :
    ∃ d : ℕ, ulpExponent (n : ℚ) = -(d : ℤ) := by
  have habs : |(n : ℚ)| = ((n.natAbs : ℕ) : ℚ) := by
    rw [Nat.cast_natAbs, Int.cast_abs]
  have hN : ⌊|(n : ℚ)| * 2 ^ 1074⌋₊ = n.natAbs * 2 ^ 1074 := by
    rw [habs]
    have : ((n.natAbs : ℕ) : ℚ) * 2 ^ 1074 = ((n.natAbs * 2 ^ 1074 : ℕ) : ℚ) := by
      rw [Nat.cast_mul, Nat.cast_pow, Nat.cast_ofNat]
    rw [this, Nat.floor_natCast]
  have ha : n.natAbs < 2 ^ 53 := by
    have : (n.natAbs : ℤ) < 2 ^ 53 := by rw [← Int.abs_eq_natAbs]; exact h
    exact_mod_cast this
  have hlt : n.natAbs * 2 ^ 1074 < 2 ^ 1127 := by
    have : (2:ℕ) ^ 1127 = 2 ^ 53 * 2 ^ 1074 := by rw [← pow_add]
    rw [this]
    exact Nat.mul_lt_mul_of_pos_right ha (by positivity)
  have hb := bitLengthAux_le (n.natAbs * 2 ^ 1074) _ _ hlt
  refine ⟨1074 - (bitLength (n.natAbs * 2 ^ 1074) - 53), ?_⟩
  unfold ulpExponent
  rw [hN]
  unfold bitLength
  omega

/-- Integers below `2^53` in magnitude are binary64 values: rounding keeps them. -/
theorem toDouble_intCast (n : ℤ) (h : |n| < 2 ^ 53) : toDouble (n : ℚ) = .fin n := by
  obtain ⟨d, hd⟩ := ulpExponent_intCast n h
  have habs : |(n : ℚ)| = ((|n| : ℤ) : ℚ) := by simp
  have hq : |(n : ℚ)| / 2 ^ (-(d : ℤ)) = ((|n| * 2 ^ d : ℤ) : ℚ) := by
    rw [habs, zpow_neg, zpow_natCast]; push_cast; field_simp
  have hv : ((|n| * 2 ^ d : ℤ) : ℚ) * 2 ^ (-(d : ℤ)) = ((|n| : ℤ) : ℚ) := by
    rw [zpow_neg, zpow_natCast]; push_cast; field_simp
  have hsmall : ¬ ((2 : ℚ) ^ 1024 ≤ ((|n| : ℤ) : ℚ)) := by
    have h1 : ((|n| : ℤ) : ℚ) < 2 ^ 53 := by exact_mod_cast h
    have h2 : (2 : ℚ) ^ 53 ≤ 2 ^ 1024 := pow_le_pow_right₀ (by norm_num) (by norm_num)
    linarith
  unfold toDouble
  simp only [hd, hq, roundHalfEven_intCast, hv]
  rw [if_neg hsmall]
  congr 1
  split
  · rename_i hneg
    have : n < 0 := by exact_mod_cast hneg
    rw [abs_of_neg this]; simp
  · rename_i hneg
    have : 0 ≤ n := by
      by_contra hc; push_neg at hc; exact hneg (by exact_mod_cast hc)
    rw [abs_of_nonneg this]

theorem toDouble_isNaN (q : ℚ) : (toDouble q).isNaN = false := by
  unfold toDouble
  simp only
  split <;> rfl

/-! ## Strings -/

theorem trim_nil : trim [] = [] := by decide

theorem trim_eq_rdropWhile (s : JSString) :
    trim s = (s.dropWhile isWhiteSpace).rdropWhile isWhiteSpace := rfl

theorem trimStart_trim (s : JSString) : trimStart (trim s) = trim s := by
  rw [trim_eq_rdropWhile s]
  generalize hu : s.dropWhile isWhiteSpace = u
  have hu' : u.dropWhile isWhiteSpace = u := by rw [← hu, List.dropWhile_idempotent]
  have hpre : u.rdropWhile isWhiteSpace <+: u := List.rdropWhile_prefix _ _
  unfold trimStart
  generalize hv : u.rdropWhile isWhiteSpace = v at hpre
  cases v with
  | nil => rfl
  | cons x v' =>
    obtain ⟨w, hw⟩ := hpre
    have hx : isWhiteSpace x = false := by
      cases hp : isWhiteSpace x with
      | false => rfl
      | true =>
        rw [← hw] at hu'
        have hlen := congrArg List.length hu'
        simp only [List.cons_append, List.dropWhile_cons, hp, if_true] at hlen
        have := (List.dropWhile_sublist isWhiteSpace (l := v' ++ w)).length_le
        simp only [List.length_cons] at hlen
        omega
    simp [List.dropWhile_cons, hx]

theorem trim_trim (s : JSString) : trim (trim s) = trim s := by
  show trimEnd (trimStart (trim s)) = trim s
  rw [trimStart_trim, trim_eq_rdropWhile]
  exact List.rdropWhile_idempotent _ _

theorem trimStart_cons_of_not_ws {c : Nat} (cs : JSString) (h : isWhiteSpace c = false) :
    trimStart (c :: cs) = c :: cs := by
  simp [trimStart, List.dropWhile, h]

theorem not_isWhiteSpace_of_lt {c : Nat} (h1 : 32 < c) (h2 : c < 160) : isWhiteSpace c = false := by
  simp only [isWhiteSpace, Bool.or_eq_false_iff, beq_eq_false_iff_ne, Bool.and_eq_false_iff,
    decide_eq_false_iff_not, ne_eq]
  omega

theorem indexOf_ne_neg_one {s : JSString} {c : Nat} (h : c ∈ s) : (indexOf s c == -1) = false := by
  unfold indexOf
  rw [if_pos h]
  simp only [beq_eq_false_iff_ne, ne_eq]
  omega

theorem indexOf_eq_neg_one {s : JSString} {c : Nat} (h : c ∉ s) : (indexOf s c == -1) = true := by
  unfold indexOf
  rw [if_neg h]
  rfl

theorem split_of_not_mem (sep : Nat) : ∀ (s : JSString), sep ∉ s → split sep s = [s]
  | [], _ => rfl
  | c :: cs, h => by
    have hc : c ≠ sep := fun e => h (e ▸ List.mem_cons_self _ _)
    have hcs : sep ∉ cs := fun m => h (List.mem_cons_of_mem _ m)
    simp [split, hc, split_of_not_mem sep cs hcs]

theorem split_append (sep : Nat) : ∀ (a b : JSString), sep ∉ a →
    split sep (a ++ sep :: b) = a :: split sep b
  | [], b, _ => by simp [split]
  | c :: cs, b, h => by
    have hc : c ≠ sep := fun e => h (e ▸ List.mem_cons_self _ _)
    have hcs : sep ∉ cs := fun m => h (List.mem_cons_of_mem _ m)
    simp [split, hc, split_append sep cs b hcs]

/-! ## Integer fields -/

theorem digitsValue_eq_decimalValue (ds : JSString) : digitsValue ds = decimalValue ds := by
  unfold digitsValue decimalValue
  rw [Nat.ofDigits_eq_foldr, List.foldr_reverse, List.foldl_map]
  congr 1
  funext acc c
  simp [Nat.add_comm]

theorem isDigit_iff (c : Nat) : isDigit c = true ↔ 48 ≤ c ∧ c ≤ 57 := by
  simp [isDigit]

theorem isDigitRun_iff (ds : JSString) :
    isDigitRun ds = true ↔ ds ≠ [] ∧ ∀ c ∈ ds, isDigit c = true := by
  cases ds <;> simp [isDigitRun]

theorem takeWhile_isDigit_of_all {ds : JSString} (h : ∀ c ∈ ds, isDigit c = true) :
    ds.takeWhile isDigit = ds := by
  rw [List.takeWhile_eq_self_iff]; exact h

theorem scanSign_cons_of_ne {c : Nat} (cs : JSString) (h1 : c ≠ 43) (h2 : c ≠ 45) :
    scanSign (c :: cs) = (false, c :: cs) := by
  unfold scanSign
  split
  · rename_i heq; simp at heq; omega
  · rename_i heq; simp at heq; omega
  · rfl

/-- On an integer field `parseInt(field, 10)` is the Number nearest to the
integer the field denotes. -/
theorem parseInt10_of_isIntegerNumeral {f : JSString} (h : isIntegerNumeral f = true) :
    parseInt10 f = toDouble ((integerValue f : ℤ) : ℚ) := by
  cases f with
  | nil => simp [isIntegerNumeral] at h
  | cons c ds =>
    unfold isIntegerNumeral at h
    simp only at h
    by_cases hsign : c = 43 ∨ c = 45
    · rw [if_pos hsign] at h
      obtain ⟨hne, hall⟩ := (isDigitRun_iff ds).1 h
      have hws : isWhiteSpace c = false := by
        rcases hsign with rfl | rfl <;> decide
      have hempty : ds.isEmpty = false := by cases ds <;> simp_all
      rcases hsign with rfl | rfl
      · simp [parseInt10, trimStart_cons_of_not_ws _ hws, scanSign,
          takeWhile_isDigit_of_all hall, hempty, integerValue, digitsValue_eq_decimalValue]
      · simp [parseInt10, trimStart_cons_of_not_ws _ hws, scanSign,
          takeWhile_isDigit_of_all hall, hempty, integerValue, digitsValue_eq_decimalValue]
    · rw [if_neg hsign] at h
      obtain ⟨_, hall⟩ := (isDigitRun_iff (c :: ds)).1 h
      have hc := (isDigit_iff c).1 (hall c (List.mem_cons_self _ _))
      have hws : isWhiteSpace c = false := not_isWhiteSpace_of_lt (by omega) (by omega)
      have h43 : c ≠ 43 := by omega
      have h45 : c ≠ 45 := by omega
      simp [parseInt10, trimStart_cons_of_not_ws _ hws, scanSign_cons_of_ne _ h43 h45,
        takeWhile_isDigit_of_all hall, integerValue, h43, h45, digitsValue_eq_decimalValue]

theorem parseInt10_isNaN (f : JSString) : (parseInt10 f).isNaN = !startsWithInteger f := by
  unfold parseInt10 startsWithInteger
  generalize (scanSign (trimStart f)) = sr
  obtain ⟨negative, r⟩ := sr
  cases r with
  | nil => simp [JSNumber.isNaN]
  | cons c cs =>
    cases hc : isDigit c with
    | false => simp [List.takeWhile, hc, JSNumber.isNaN]
    | true => simp [List.takeWhile, hc, toDouble_isNaN]

theorem colon_not_mem_of_isIntegerNumeral {f : JSString} (h : isIntegerNumeral f = true) :
    colon ∉ f := by
  cases f with
  | nil => simp
  | cons c ds =>
    unfold isIntegerNumeral at h
    simp only at h
    have key : ∀ l : JSString, (∀ x ∈ l, isDigit x = true) → colon ∉ l := by
      intro l hl hmem
      have := (isDigit_iff colon).1 (hl colon hmem)
      simp [colon] at this
    by_cases hsign : c = 43 ∨ c = 45
    · rw [if_pos hsign] at h
      obtain ⟨_, hall⟩ := (isDigitRun_iff ds).1 h
      intro hmem
      rcases List.mem_cons.1 hmem with e | m
      · rcases hsign with rfl | rfl <;> simp [colon] at e
      · exact key ds hall m
    · rw [if_neg hsign] at h
      obtain ⟨_, hall⟩ := (isDigitRun_iff (c :: ds)).1 h
      exact key _ hall

/-! ## The time parser: two fields -/

theorem parseTime_of_colon_shape (timeString fm fs : JSString)
    (hshape : trim timeString = fm ++ colon :: fs)
    (hm : colon ∉ fm) (hs : colon ∉ fs) :
    parseTime timeString =
      if !(parseInt10 fm).isNaN && !(parseInt10 fs).isNaN then
        .num (((parseInt10 fm).mul (.fin 60)).add (parseInt10 fs))
      else .null := by
  have hne : timeString ≠ [] := by
    rintro rfl
    rw [trim_nil] at hshape
    simp at hshape
  have hbool : (JSValue.str timeString).toBoolean = true := by
    cases timeString with
    | nil => exact absurd rfl hne
    | cons c cs => rfl
  have hmem : colon ∈ trim timeString := by rw [hshape]; simp
  have hsplit : split colon (trim timeString) = [fm, fs] := by
    rw [hshape, split_append colon fm fs hm, split_of_not_mem colon fs hs]
  unfold parseTime
  simp only [hbool, indexOf_ne_neg_one hmem, hsplit]
  simp

/-- C1 (as amended): when the trimmed input is two integer fields `m:s` whose
exact result is a safe integer (`|m|*60 + |s| < 2^53`), `parseTime` returns
exactly `m*60 + s`. -/
theorem parseTime_minutes_seconds (timeString fm fs : JSString)
    (hshape : trim timeString = fm ++ colon :: fs)
    (hm : isIntegerNumeral fm = true) (hs : isIntegerNumeral fs = true)
    (hsafe : |integerValue fm| * 60 + |integerValue fs| < 2 ^ 53) :
    parseTime timeString =
      .num (.fin ((integerValue fm * 60 + integerValue fs : ℤ) : ℚ)) := by
  have h0m := abs_nonneg (integerValue fm)
  have h0s := abs_nonneg (integerValue fs)
  have hm1 : |integerValue fm| < 2 ^ 53 := by linarith
  have hs1 : |integerValue fs| < 2 ^ 53 := by linarith
  have hm60 : |integerValue fm * 60| < 2 ^ 53 := by
    rw [abs_mul, abs_of_nonneg (by norm_num : (0:ℤ) ≤ 60)]; linarith
  have hsum : |integerValue fm * 60 + integerValue fs| < 2 ^ 53 := by
    calc |integerValue fm * 60 + integerValue fs|
        ≤ |integerValue fm * 60| + |integerValue fs| := abs_add _ _
      _ = |integerValue fm| * 60 + |integerValue fs| := by
          rw [abs_mul, abs_of_nonneg (by norm_num : (0:ℤ) ≤ 60)]
      _ < 2 ^ 53 := hsafe
  rw [parseTime_of_colon_shape timeString fm fs hshape
    (colon_not_mem_of_isIntegerNumeral hm) (colon_not_mem_of_isIntegerNumeral hs),
    parseInt10_of_isIntegerNumeral hm, parseInt10_of_isIntegerNumeral hs,
    toDouble_intCast _ hm1, toDouble_intCast _ hs1]
  have e1 : ((integerValue fm : ℤ) : ℚ) * 60 = ((integerValue fm * 60 : ℤ) : ℚ) := by push_cast; ring
  have e2 : ((integerValue fm * 60 : ℤ) : ℚ) + ((integerValue fs : ℤ) : ℚ)
      = ((integerValue fm * 60 + integerValue fs : ℤ) : ℚ) := by push_cast; ring
  simp only [JSNumber.isNaN, JSNumber.mul, JSNumber.add, e1, toDouble_intCast _ hm60, e2,
    toDouble_intCast _ hsum]
  simp

/-- Witness of `parseTime_minutes_seconds`: `parseTime("1:30")` is `90`. -/
theorem parseTime_minutes_seconds_witness :
    parseTime (utf16 "1:30") = .num (.fin ((integerValue (utf16 "1") * 60 + integerValue (utf16 "30") : ℤ) : ℚ))
    ∧ ((integerValue (utf16 "1") * 60 + integerValue (utf16 "30") : ℤ) : ℚ) = 90 :=
  ⟨parseTime_minutes_seconds (utf16 "1:30") (utf16 "1") (utf16 "30")
    (by decide!) (by decide!) (by decide!) (by decide!), by decide!⟩

/-- C1 (as stated) fails on large fields: the trimmed input
`9007199254740993:0` is two integer fields, yet the result is not
`9007199254740993*60 + 0`, because `parseInt` rounds the minutes to the
nearest binary64 value `9007199254740992`. -/
theorem parseTime_minutes_seconds_rounds :
    trim (utf16 "9007199254740993:0") = utf16 "9007199254740993" ++ colon :: utf16 "0"
    ∧ isIntegerNumeral (utf16 "9007199254740993") = true
    ∧ isIntegerNumeral (utf16 "0") = true
    ∧ integerValue (utf16 "9007199254740993") * 60 + integerValue (utf16 "0") = 540431955284459580
    ∧ parseTime (utf16 "9007199254740993:0") = .num (.fin 540431955284459520)
    ∧ parseTime (utf16 "9007199254740993:0") ≠
        .num (.fin ((integerValue (utf16 "9007199254740993") * 60 + integerValue (utf16 "0") : ℤ) : ℚ)) := by
  decide!

/-! ## The time parser: numerals -/

theorem scanSign_spec (s : JSString) :
    ∃ pre, s = pre ++ (scanSign s).2 ∧ ∀ c ∈ pre, isNumeralUnit c = true := by
  unfold scanSign
  split
  · exact ⟨[43], rfl, by decide⟩
  · exact ⟨[45], rfl, by decide⟩
  · exact ⟨[], rfl, by simp⟩

theorem span_isDigit_spec (s : JSString) :
    s = (s.span isDigit).1 ++ (s.span isDigit).2
    ∧ ∀ c ∈ (s.span isDigit).1, isNumeralUnit c = true := by
  rw [List.span_eq_take_drop]
  refine ⟨(List.takeWhile_append_dropWhile _ _).symm, ?_⟩
  intro c hc
  have := List.mem_takeWhile_imp hc
  simp [isNumeralUnit, this]

theorem scanExponent_spec (s : JSString) :
    ∃ pre, s = pre ++ (scanExponent s).2 ∧ ∀ c ∈ pre, isNumeralUnit c = true := by
  cases s with
  | nil => exact ⟨[], rfl, by simp⟩
  | cons c rest =>
    rw [scanExponent]
    by_cases hc : c = 101 ∨ c = 69
    · rw [if_pos hc]
      obtain ⟨p1, h1, hp1⟩ := scanSign_spec rest
      obtain ⟨h2, hp2⟩ := span_isDigit_spec (scanSign rest).2
      cases hs : scanSign rest with
      | mk negative r1 =>
        rw [hs] at h1 h2 hp2
        cases hd : r1.span isDigit with
        | mk ds r2 =>
          rw [hd] at h2 hp2
          simp only [hd] at h1 h2 hp2 ⊢
          by_cases hds : ds.isEmpty = true
          · rw [if_pos hds]; exact ⟨[], rfl, by simp⟩
          · rw [if_neg hds]
            refine ⟨c :: (p1 ++ ds), ?_, ?_⟩
            · simp only [List.cons_append, List.append_assoc, List.cons.injEq, true_and]
              rw [← h2]; exact h1
            · intro x hx
              rcases List.mem_cons.1 hx with rfl | hx
              · rcases hc with rfl | rfl <;> decide
              · rcases List.mem_append.1 hx with hx | hx
                · exact hp1 x hx
                · exact hp2 x hx
    · rw [if_neg hc]; exact ⟨[], rfl, by simp⟩

theorem scanUnsignedDecimal_spec (s : JSString) (m : Option ℚ) (rest : JSString)
    (h : scanUnsignedDecimal s = some (m, rest)) :
    ∃ pre, s = pre ++ rest ∧ ∀ c ∈ pre, isNumeralUnit c = true := by
  unfold scanUnsignedDecimal at h
  split at h
  · rename_i hinf
    obtain ⟨w, hw⟩ := List.isPrefixOf_iff_prefix.1 hinf
    have hrest : rest = w := by
      have : List.drop 8 s = rest := by simpa using (Prod.mk.inj (Option.some.inj h)).2
      rw [← this, ← hw]
      rfl
    exact ⟨infinityLiteral, by rw [hrest, hw], by decide⟩
  · obtain ⟨h1, hp1⟩ := span_isDigit_spec s
    simp only at h
    split at h
    · rename_i r2 heq
      obtain ⟨h2, hp2⟩ := span_isDigit_spec r2
      split at h
      · simp at h
      · obtain ⟨p3, h3, hp3⟩ := scanExponent_spec (r2.span isDigit).2
        have hrest : (scanExponent (r2.span isDigit).2).2 = rest := by
          simpa using (Prod.mk.inj (Option.some.inj h)).2
        refine ⟨(s.span isDigit).1 ++ 46 :: ((r2.span isDigit).1 ++ p3), ?_, ?_⟩
        · rw [← hrest]
          simp only [List.append_assoc, List.cons_append]
          rw [← h3, ← h2, ← heq]
          exact h1
        · intro x hx
          rcases List.mem_append.1 hx with hx | hx
          · exact hp1 x hx
          · rcases List.mem_cons.1 hx with rfl | hx
            · decide
            · rcases List.mem_append.1 hx with hx | hx
              · exact hp2 x hx
              · exact hp3 x hx
    · split at h
      · simp at h
      · obtain ⟨p3, h3, hp3⟩ := scanExponent_spec (s.span isDigit).2
        have hrest : (scanExponent (s.span isDigit).2).2 = rest := by
          simpa using (Prod.mk.inj (Option.some.inj h)).2
        refine ⟨(s.span isDigit).1 ++ p3, ?_, ?_⟩
        · rw [← hrest, List.append_assoc, ← h3]
          exact h1
        · intro x hx
          rcases List.mem_append.1 hx with hx | hx
          · exact hp1 x hx
          · exact hp3 x hx

theorem scanDecimal_nil : scanDecimal [] = none := by decide!

theorem signedNumber_isNaN (negative : Bool) (m : Option ℚ) :
    (signedNumber negative m).isNaN = false := by
  cases m with
  | none => rfl
  | some q => exact toDouble_isNaN _

theorem scanDecimal_spec (s : JSString) (n : JSNumber) (rest : JSString)
    (h : scanDecimal s = some (n, rest)) :
    n.isNaN = false ∧ ∃ pre, s = pre ++ rest ∧ ∀ c ∈ pre, isNumeralUnit c = true := by
  unfold scanDecimal at h
  obtain ⟨p1, h1, hp1⟩ := scanSign_spec s
  simp only at h
  cases hu : scanUnsignedDecimal (scanSign s).2 with
  | none => rw [hu] at h; simp at h
  | some pr =>
    obtain ⟨m, r⟩ := pr
    rw [hu] at h
    simp only [Option.some.injEq, Prod.mk.injEq] at h
    obtain ⟨hn, hr⟩ := h
    subst hr
    obtain ⟨p2, h2, hp2⟩ := scanUnsignedDecimal_spec _ _ _ hu
    refine ⟨by rw [← hn]; exact signedNumber_isNaN _ _, p1 ++ p2, ?_, ?_⟩
    · rw [List.append_assoc, ← h2]; exact h1
    · intro x hx
      rcases List.mem_append.1 hx with hx | hx
      · exact hp1 x hx
      · exact hp2 x hx

theorem nonDecimalLiteral_eq_none (t : JSString) (h : ∀ c ∈ t, isNumeralUnit c = true) :
    nonDecimalLiteral t = none := by
  unfold nonDecimalLiteral
  split
  · rename_i p ds
    have hp : isNumeralUnit p = true := h p (by simp)
    have hne : p ≠ 120 ∧ p ≠ 88 ∧ p ≠ 111 ∧ p ≠ 79 ∧ p ≠ 98 ∧ p ≠ 66 := by
      refine ⟨?_, ?_, ?_, ?_, ?_, ?_⟩ <;> (rintro rfl; revert hp; decide)
    simp [hne.1, hne.2.1, hne.2.2.1, hne.2.2.2.1, hne.2.2.2.2.1, hne.2.2.2.2.2]
  · rfl

/-- On decimal numerals the numeric branch is right: when the trimmed input is
a decimal numeral,
`parseTime` returns exactly the Number that the numeral denotes (what
`Number(timeString)` gives), and that Number is not `NaN`. -/
theorem parseTime_decimal_numeral (timeString : JSString)
    (h : isDecimalNumeral (trim timeString) = true) :
    parseTime timeString = .num (stringToNumber timeString)
    ∧ (stringToNumber timeString).isNaN = false := by
  unfold isDecimalNumeral at h
  cases hsd : scanDecimal (trim timeString) with
  | none => rw [hsd] at h; simp at h
  | some pr =>
    obtain ⟨n, rest⟩ := pr
    cases rest with
    | cons c cs => rw [hsd] at h; simp at h
    | nil =>
      obtain ⟨hnan, pre, hpre, hunits⟩ := scanDecimal_spec _ _ _ hsd
      rw [List.append_nil] at hpre
      rw [← hpre] at hunits
      have hne : trim timeString ≠ [] := by
        intro he; rw [he, scanDecimal_nil] at hsd; simp at hsd
      have hempty : (trim timeString).isEmpty = false := by
        cases hh : trim timeString with
        | nil => exact absurd hh hne
        | cons c cs => rfl
      have hnd := nonDecimalLiteral_eq_none _ hunits
      have hcolon : colon ∉ trim timeString := by
        intro hm
        have := hunits colon hm
        revert this; decide
      have hnum : ∀ s, trim s = trim timeString → stringToNumber s = n := by
        intro s hs
        unfold stringToNumber
        simp only [hs, hempty, hnd, hsd]
        simp
      have hb : (JSValue.str timeString).toBoolean = true := by
        cases timeString with
        | nil => exact absurd trim_nil hne
        | cons c cs => rfl
      have h1 := hnum timeString rfl
      have h2 := hnum (trim timeString) (trim_trim _)
      refine ⟨?_, by rw [h1]; exact hnan⟩
      unfold parseTime
      simp only [hb, isNaN, JSValue.toNumber, h2, hnan, indexOf_eq_neg_one hcolon, parseFloat,
        trimStart_trim, hsd, h1]
      simp

/-- Witness of `parseTime_decimal_numeral`: `parseTime("90")` and
`parseTime(" 1.5e2 ")`. -/
theorem parseTime_decimal_numeral_witness :
    (parseTime (utf16 "90") = .num (stringToNumber (utf16 "90"))
      ∧ (stringToNumber (utf16 "90")).isNaN = false)
    ∧ stringToNumber (utf16 "90") = .fin 90
    ∧ parseTime (utf16 " 1.5e2 ") = .num (.fin 150) :=
  ⟨parseTime_decimal_numeral (utf16 "90") (by decide!), by decide!, by decide!⟩

/-- C2: the input `0x10` has no colon and passes the numeric test of the code
(`isNaN` is false: as a Number it is `16`), yet `parseTime` returns `0`,
because `parseFloat` reads only the prefix `0`. -/
theorem parseTime_hex_numeral :
    indexOf (trim (utf16 "0x10")) colon = -1
    ∧ isNaN (.str (trim (utf16 "0x10"))) = false
    ∧ stringToNumber (trim (utf16 "0x10")) = .fin 16
    ∧ parseTime (utf16 "0x10") = .num (.fin 0) := by
  decide!

/-! ## The time parser: rejected inputs -/

theorem stringToNumber_eq_nan (t : JSString) (htrim : trim t = t) (hne : t ≠ [])
    (hdec : isDecimalNumeral t = false) (hrad : isRadixNumeral t = false) :
    stringToNumber t = .nan := by
  have hempty : t.isEmpty = false := by cases t <;> simp_all
  have hnd : nonDecimalLiteral t = none := by
    simpa [isRadixNumeral] using hrad
  unfold stringToNumber
  simp only [htrim, hempty, hnd]
  unfold isDecimalNumeral at hdec
  cases hsd : scanDecimal t with
  | none => rfl
  | some pr =>
    obtain ⟨n, rest⟩ := pr
    cases rest with
    | nil => rw [hsd] at hdec; simp at hdec
    | cons c cs => rfl

/-- C3 (as amended): `parseTime` returns `null` for the empty input, and for an
input whose trimmed form is non-empty, is no numeral (neither decimal nor
`0x`/`0o`/`0b`) and is not two colon-separated fields that each begin with an
integer. -/
theorem parseTime_eq_null (timeString : JSString)
    (h : timeString = [] ∨
      (trim timeString ≠ [] ∧ isDecimalNumeral (trim timeString) = false
        ∧ isRadixNumeral (trim timeString) = false
        ∧ isLenientMinutesSeconds (trim timeString) = false)) :
    parseTime timeString = .null := by
  rcases h with rfl | ⟨hne, hdec, hrad, hms⟩
  · rfl
  · have hnan := stringToNumber_eq_nan (trim timeString) (trim_trim _) hne hdec hrad
    have hb : (JSValue.str timeString).toBoolean = true := by
      cases timeString with
      | nil => exact absurd trim_nil hne
      | cons c cs => rfl
    have hnn : JSNumber.nan.isNaN = true := rfl
    unfold parseTime
    simp only [hb, isNaN, JSValue.toNumber, hnan, hnn]
    unfold isLenientMinutesSeconds at hms
    generalize split colon (trim timeString) = parts at hms
    match parts, hms with
    | [], _ => simp
    | [_], _ => simp
    | [fm, fs], hms =>
      simp only [Bool.and_eq_false_iff] at hms
      rcases hms with h1 | h1 <;> simp [parseInt10_isNaN, h1]
    | _ :: _ :: _ :: _, _ => simp

/-- Witness of `parseTime_eq_null`: the empty string, `abc` and `1:2:3` are
rejected. -/
theorem parseTime_eq_null_witness :
    parseTime (utf16 "") = .null ∧ parseTime (utf16 "abc") = .null
    ∧ parseTime (utf16 "1:2:3") = .null :=
  ⟨parseTime_eq_null (utf16 "") (Or.inl (by decide)),
   parseTime_eq_null (utf16 "abc") (Or.inr (by decide!)),
   parseTime_eq_null (utf16 "1:2:3") (Or.inr (by decide!))⟩

/-- C3 (as stated) fails: the trimmed input `1x:30` is no decimal numeral and
not two integer fields (`1x` is not an integer numeral), yet `parseTime`
returns `90`, because `parseInt` reads the integer prefix of a field. -/
theorem parseTime_lenient_field :
    isDecimalNumeral (trim (utf16 "1x:30")) = false
    ∧ isMinutesSeconds (trim (utf16 "1x:30")) = false
    ∧ isIntegerNumeral (utf16 "1x") = false
    ∧ parseTime (utf16 "1x:30") = .num (.fin 90)
    ∧ parseTime (utf16 "1x:30") ≠ .null := by
  decide!

theorem parseTime_null_or_num (timeString : JSString) :
    parseTime timeString = .null ∨ ∃ n, parseTime timeString = .num n := by
  unfold parseTime
  split
  · exact Or.inl rfl
  · simp only
    split
    · exact Or.inr ⟨_, rfl⟩
    · split
      · split
        · exact Or.inr ⟨_, rfl⟩
        · exact Or.inl rfl
      · exact Or.inl rfl

/-! ## The matcher -/

theorem orElse_eq_some {α : Type} {a : Option α} {f : Unit → Option α} {x : α}
    (h : a.orElse f = some x) : a = some x ∨ f () = some x := by
  cases a with
  | none => right; simpa [Option.orElse] using h
  | some y => left; simpa [Option.orElse] using h

theorem run_lit {α : Type} : ∀ (w s : JSString) (cap : Option JSString)
    (k : JSString → Option JSString → Option α),
    (Regex.lit w).run s cap k = if w.isPrefixOf s then k (s.drop w.length) cap else none
  | [], s, cap, k => by simp [Regex.lit, Regex.run]
  | c :: w, [], cap, k => by simp [Regex.lit, Regex.run, List.isPrefixOf]
  | c :: w, x :: s, cap, k => by
    simp only [Regex.lit, Regex.run, List.isPrefixOf, List.length_cons, List.drop_succ_cons]
    rw [run_lit w s cap k]
    by_cases h : x = c
    · subst h; simp
    · have : (c == x) = false := by simp; exact fun e => h e.symm
      simp [h, this]

theorem run_lit_some_starts {α : Type} {w s : JSString} {cap : Option JSString}
    {k : JSString → Option JSString → Option α} {x : α}
    (h : (Regex.lit w).run s cap k = some x) : w <+: s ∧ k (s.drop w.length) cap = some x := by
  rw [run_lit] at h
  split at h
  · rename_i hp
    exact ⟨List.isPrefixOf_iff_prefix.1 hp, h⟩
  · simp at h

theorem starGreedy_eq_none {α : Type} (p : Nat → Bool) (k : JSString → Option α) :
    ∀ s : JSString, (∀ t, t <:+ s → k t = none) → starGreedy p s k = none
  | [], h => by simpa [starGreedy] using h [] (List.suffix_refl _)
  | c :: cs, h => by
    have ih := starGreedy_eq_none p k cs (fun t ht => h t (ht.trans (List.suffix_cons c cs)))
    have h0 := h (c :: cs) (List.suffix_refl _)
    unfold starGreedy
    split <;> simp [ih, h0]

theorem starGreedy_some_suffix {α : Type} (p : Nat → Bool) (k : JSString → Option α) (x : α) :
    ∀ s : JSString, starGreedy p s k = some x → ∃ t, t <:+ s ∧ k t = some x
  | [], h => ⟨[], List.suffix_refl _, by simpa [starGreedy] using h⟩
  | c :: cs, h => by
    unfold starGreedy at h
    split at h
    · rcases orElse_eq_some h with h1 | h2
      · obtain ⟨t, ht, hk⟩ := starGreedy_some_suffix p k x cs h1
        exact ⟨t, ht.trans (List.suffix_cons c cs), hk⟩
      · exact ⟨c :: cs, List.suffix_refl _, h2⟩
    · exact ⟨c :: cs, List.suffix_refl _, h⟩

theorem starLazy_some_suffix {α : Type} (p : Nat → Bool) (k : JSString → Option α) (x : α) :
    ∀ s : JSString, starLazy p s k = some x → ∃ t, t <:+ s ∧ k t = some x
  | [], h => ⟨[], List.suffix_refl _, by simpa [starLazy] using h⟩
  | c :: cs, h => by
    unfold starLazy at h
    rcases orElse_eq_some h with h1 | h2
    · exact ⟨c :: cs, List.suffix_refl _, h1⟩
    · split at h2
      · obtain ⟨t, ht, hk⟩ := starLazy_some_suffix p k x cs h2
        exact ⟨t, ht.trans (List.suffix_cons c cs), hk⟩
      · simp at h2

/-- A successful run hands a suffix of its input to the continuation. -/
theorem run_some_suffix {α : Type} (r : Regex) : ∀ (s : JSString) (cap : Option JSString)
    (k : JSString → Option JSString → Option α) (x : α), r.run s cap k = some x →
    ∃ t cap₁, t <:+ s ∧ k t cap₁ = some x := by
  induction r with
  | empty => intro s cap k x h; exact ⟨s, cap, List.suffix_refl _, by simpa [Regex.run] using h⟩
  | unit p =>
    intro s cap k x h
    cases s with
    | nil => simp [Regex.run] at h
    | cons c cs =>
      simp only [Regex.run] at h
      split at h
      · exact ⟨cs, cap, List.suffix_cons c cs, h⟩
      · simp at h
  | seq r₁ r₂ ih₁ ih₂ =>
    intro s cap k x h
    simp only [Regex.run] at h
    obtain ⟨t₁, c₁, ht₁, h₁⟩ := ih₁ s cap _ x h
    obtain ⟨t₂, c₂, ht₂, h₂⟩ := ih₂ t₁ c₁ k x h₁
    exact ⟨t₂, c₂, ht₂.trans ht₁, h₂⟩
  | alt r₁ r₂ ih₁ ih₂ =>
    intro s cap k x h
    simp only [Regex.run] at h
    rcases orElse_eq_some h with h₁ | h₂
    · exact ih₁ s cap k x h₁
    · exact ih₂ s cap k x h₂
  | star p =>
    intro s cap k x h
    simp only [Regex.run] at h
    obtain ⟨t, ht, hk⟩ := starGreedy_some_suffix p _ x s h
    exact ⟨t, cap, ht, hk⟩
  | lazyStar p =>
    intro s cap k x h
    simp only [Regex.run] at h
    obtain ⟨t, ht, hk⟩ := starLazy_some_suffix p _ x s h
    exact ⟨t, cap, ht, hk⟩
  | group r ih =>
    intro s cap k x h
    simp only [Regex.run] at h
    obtain ⟨t, _, ht, hk⟩ := ih s cap _ x h
    exact ⟨t, _, ht, hk⟩

theorem exec_some_suffix (r : Regex) (m : Option JSString) :
    ∀ s : JSString, r.exec s = some m →
      ∃ t, t <:+ s ∧ r.run t none (fun _ cap => some cap) = some m
  | [], h => ⟨[], List.suffix_refl _, by simpa [Regex.exec] using h⟩
  | c :: cs, h => by
    unfold Regex.exec at h
    rcases orElse_eq_some h with h1 | h2
    · exact ⟨c :: cs, List.suffix_refl _, h1⟩
    · obtain ⟨t, ht, hr⟩ := exec_some_suffix r m cs h2
      exact ⟨t, ht.trans (List.suffix_cons c cs), hr⟩

theorem exec_of_run_some (r : Regex) (s : JSString) (m : Option JSString)
    (h : r.run s none (fun _ cap => some cap) = some m) : r.exec s = some m := by
  cases s with
  | nil => simpa [Regex.exec] using h
  | cons c cs => simp [Regex.exec, h]

theorem run_rep_unit {α : Type} (p : Nat → Bool) : ∀ (a b : JSString) (cap : Option JSString)
    (k : JSString → Option JSString → Option α), (∀ c ∈ a, p c = true) →
    (Regex.rep a.length (Regex.unit p)).run (a ++ b) cap k = k b cap
  | [], b, cap, k, _ => by simp [Regex.rep, Regex.run]
  | c :: a, b, cap, k, h => by
    have hc : p c = true := h c (List.mem_cons_self _ _)
    simp only [List.length_cons, Regex.rep, Regex.run, List.cons_append, hc, if_true]
    exact run_rep_unit p a b cap k (fun x hx => h x (List.mem_cons_of_mem _ hx))

theorem run_rep_unit_some {α : Type} (p : Nat → Bool) (x : α) : ∀ (n : Nat) (s : JSString)
    (cap : Option JSString) (k : JSString → Option JSString → Option α),
    (Regex.rep n (Regex.unit p)).run s cap k = some x →
    ∃ g rest, s = g ++ rest ∧ g.length = n ∧ (∀ c ∈ g, p c = true) ∧ k rest cap = some x
  | 0, s, cap, k, h => ⟨[], s, rfl, rfl, by simp, by simpa [Regex.rep, Regex.run] using h⟩
  | n + 1, [], cap, k, h => by simp [Regex.rep, Regex.run] at h
  | n + 1, c :: cs, cap, k, h => by
    simp only [Regex.rep, Regex.run] at h
    split at h
    · rename_i hc
      obtain ⟨g, rest, hs, hl, hp, hk⟩ := run_rep_unit_some p x n cs cap k h
      refine ⟨c :: g, rest, by simp [hs], by simp [hl], ?_, hk⟩
      intro y hy
      rcases List.mem_cons.1 hy with rfl | hy
      · exact hc
      · exact hp y hy
    · simp at h

theorem run_plus_then_unit_eq_none {α : Type} (p : Nat → Bool) (c : Nat) (r : Regex)
    (s : JSString) (cap : Option JSString) (k : JSString → Option JSString → Option α)
    (h : c ∉ s) :
    (Regex.seq (Regex.plus p) (Regex.seq (Regex.lit [c]) r)).run s cap k = none := by
  have key : ∀ t : JSString, t <:+ s →
      (Regex.seq (Regex.lit [c]) r).run t cap k = none := by
    intro t ht
    simp only [Regex.run, run_lit]
    cases t with
    | nil => simp [List.isPrefixOf]
    | cons x xs =>
      have hx : x ∈ s := ht.subset (List.mem_cons_self _ _)
      have hne : x ≠ c := by rintro rfl; exact h hx
      have : (c == x) = false := by
        simp only [beq_eq_false_iff_ne, ne_eq]; exact fun e => hne e.symm
      simp [List.isPrefixOf, this, hne]
  cases s with
  | nil => simp [Regex.plus, Regex.run]
  | cons x xs =>
    simp only [Regex.plus, Regex.run]
    split
    · exact starGreedy_eq_none p _ xs (fun t ht => by
        have := key t (ht.trans (List.suffix_cons x xs))
        simpa only [Regex.run] using this)
    · rfl

theorem run_plus_then_lit_eq_none {α : Type} (p : Nat → Bool) (c : Nat)
    (s : JSString) (cap : Option JSString) (k : JSString → Option JSString → Option α)
    (h : c ∉ s) :
    (Regex.seq (Regex.plus p) (Regex.lit [c])).run s cap k = none := by
  have key : ∀ t : JSString, t <:+ s → (Regex.lit [c]).run t cap k = none := by
    intro t ht
    simp only [run_lit]
    cases t with
    | nil => simp [List.isPrefixOf]
    | cons x xs =>
      have hx : x ∈ s := ht.subset (List.mem_cons_self _ _)
      have hne : x ≠ c := by rintro rfl; exact h hx
      have : (c == x) = false := by
        simp only [beq_eq_false_iff_ne, ne_eq]; exact fun e => hne e.symm
      simp [List.isPrefixOf, this, hne]
  cases s with
  | nil => simp [Regex.plus, Regex.run]
  | cons x xs =>
    simp only [Regex.plus, Regex.run]
    split
    · exact starGreedy_eq_none p _ xs (fun t ht => by
        have := key t (ht.trans (List.suffix_cons x xs))
        simpa only [Regex.run] using this)
    · rfl

/-! ## The source expression -/

theorem isIdUnit_ne_slash {c : Nat} (h : isIdUnit c = true) : c ≠ slash := by
  rintro rfl; simp [isIdUnit, slash] at h

theorem isIdUnit_isNonSpace {c : Nat} (h : isIdUnit c = true) : isNonSpace c = true := by
  have : 32 < c ∧ c < 160 := by
    simp only [isIdUnit, Bool.or_eq_true, Bool.and_eq_true, decide_eq_true_eq, beq_iff_eq] at h
    omega
  simp [isNonSpace, not_isWhiteSpace_of_lt this.1 this.2]

theorem utf16_slash : utf16 "/" = [slash] := by decide

theorem slash_not_mem_of_isIdUnit {id : JSString} (hid : ∀ c ∈ id, isIdUnit c = true) :
    slash ∉ id := fun h => isIdUnit_ne_slash (hid _ h) rfl

theorem run_idGroup {α : Type} (a b : JSString) (cap : Option JSString)
    (k : JSString → Option JSString → Option α) (hlen : a.length = 11)
    (ha : ∀ c ∈ a, isIdUnit c = true) :
    idGroup.run (a ++ b) cap k = k b (some a) := by
  unfold idGroup
  rw [Regex.run]
  have := run_rep_unit isIdUnit a b cap
    (fun s₁ _ => k s₁ (some ((a ++ b).take ((a ++ b).length - s₁.length)))) ha
  rw [hlen] at this
  rw [this]
  simp

theorem run_idGroup_some {α : Type} (s : JSString) (cap : Option JSString)
    (k : JSString → Option JSString → Option α) (x : α) (h : idGroup.run s cap k = some x) :
    ∃ g rest, s = g ++ rest ∧ g.length = 11 ∧ (∀ c ∈ g, isIdUnit c = true)
      ∧ k rest (some g) = some x := by
  unfold idGroup at h
  rw [Regex.run] at h
  obtain ⟨g, rest, hs, hl, hp, hk⟩ := run_rep_unit_some isIdUnit x 11 s cap _ h
  refine ⟨g, rest, hs, hl, hp, ?_⟩
  have : List.take (s.length - rest.length) s = g := by
    rw [hs]; simp
  rw [← this]; exact hk

theorem run_pathRegex_watch {α : Type} (id : JSString) (cap : Option JSString)
    (k : JSString → Option JSString → Option α) (x : α)
    (hid : ∀ c ∈ id, isIdUnit c = true) (hk : k id cap = some x) :
    pathRegex.run (119 :: 97 :: 116 :: 99 :: 104 :: 63 :: 118 :: 61 :: id) cap k = some x := by
  have hv : utf16 "v" = [118] := by decide
  have he : utf16 "e" = [101] := by decide
  have hve : utf16 "v=" = [118, 61] := by decide
  have hns : slash ∉ 119 :: 97 :: 116 :: 99 :: 104 :: 63 :: 118 :: 61 :: id := by
    have := slash_not_mem_of_isIdUnit hid
    simp [slash] at this ⊢
    exact this
  unfold pathRegex
  rw [Regex.run, utf16_slash, run_plus_then_unit_eq_none _ _ _ _ _ _ hns]
  rw [hv, he, hve]
  simp [Regex.run, run_lit, starLazy, List.isPrefixOf, isNonSpace, isWhiteSpace, isQueryMark, hk]

theorem run_pathRegex_embed {α : Type} (id : JSString) (cap : Option JSString)
    (k : JSString → Option JSString → Option α) (x : α)
    (hid : ∀ c ∈ id, isIdUnit c = true) (hk : k id cap = some x) :
    pathRegex.run (101 :: 109 :: 98 :: 101 :: 100 :: 47 :: id) cap k = some x := by
  have hv : utf16 "v" = [118] := by decide
  have he : utf16 "e" = [101] := by decide
  have hm : utf16 "mbed" = [109, 98, 101, 100] := by decide
  have hns := slash_not_mem_of_isIdUnit hid
  have hfail := run_plus_then_lit_eq_none isNonSpace slash id cap k hns
  unfold pathRegex
  rw [hv, he, hm, utf16_slash]
  simp [Regex.run, Regex.plus, Regex.opt, run_lit, starGreedy, List.isPrefixOf, isSegmentUnit,
    isWhiteSpace, slash, hk]
  simp [Regex.run, Regex.plus, slash] at hfail
  rw [hfail]
  rfl

theorem run_frame_long {α : Type} (P G : Regex) (rest : JSString) (cap : Option JSString)
    (k : JSString → Option JSString → Option α) (x : α)
    (h : P.run rest cap (fun s c => G.run s c k) = some x) :
    (Regex.seq schemeRegex (Regex.seq wwwRegex (Regex.seq
      (Regex.alt (Regex.seq (Regex.lit (utf16 "youtube.com/")) P) (Regex.lit (utf16 "youtu.be/")))
      G))).run
      (104 :: 116 :: 116 :: 112 :: 115 :: 58 :: 47 :: 47 :: 119 :: 119 :: 119 :: 46 :: 121 ::
        111 :: 117 :: 116 :: 117 :: 98 :: 101 :: 46 :: 99 :: 111 :: 109 :: 47 :: rest) cap k
      = some x := by
  have e1 : utf16 "http" = [104, 116, 116, 112] := by decide
  have e2 : utf16 "s" = [115] := by decide
  have e3 : utf16 "://" = [58, 47, 47] := by decide
  have e4 : utf16 "www." = [119, 119, 119, 46] := by decide
  have e5 : utf16 "youtube.com/" = [121, 111, 117, 116, 117, 98, 101, 46, 99, 111, 109, 47] := by
    decide
  have e6 : utf16 "youtu.be/" = [121, 111, 117, 116, 117, 46, 98, 101, 47] := by decide
  unfold schemeRegex wwwRegex
  rw [e1, e2, e3, e4, e5, e6]
  simp [Regex.run, Regex.opt, run_lit, List.isPrefixOf, h]

theorem run_frame_short {α : Type} (P G : Regex) (rest : JSString) (cap : Option JSString)
    (k : JSString → Option JSString → Option α) (x : α)
    (h : G.run rest cap k = some x) :
    (Regex.seq schemeRegex (Regex.seq wwwRegex (Regex.seq
      (Regex.alt (Regex.seq (Regex.lit (utf16 "youtube.com/")) P) (Regex.lit (utf16 "youtu.be/")))
      G))).run
      (104 :: 116 :: 116 :: 112 :: 115 :: 58 :: 47 :: 47 :: 121 :: 111 :: 117 :: 116 :: 117 ::
        46 :: 98 :: 101 :: 47 :: rest) cap k
      = some x := by
  have e1 : utf16 "http" = [104, 116, 116, 112] := by decide
  have e2 : utf16 "s" = [115] := by decide
  have e3 : utf16 "://" = [58, 47, 47] := by decide
  have e4 : utf16 "www." = [119, 119, 119, 46] := by decide
  have e5 : utf16 "youtube.com/" = [121, 111, 117, 116, 117, 98, 101, 46, 99, 111, 109, 47] := by
    decide
  have e6 : utf16 "youtu.be/" = [121, 111, 117, 116, 117, 46, 98, 101, 47] := by decide
  unfold schemeRegex wwwRegex
  rw [e1, e2, e3, e4, e5, e6]
  simp [Regex.run, Regex.opt, run_lit, List.isPrefixOf, h]

/-- Every match of the source expression starts, after the optional scheme
and `www.`, with one of the two host literals. -/
theorem host_infix_of_run_some {α : Type} (s : JSString) (cap : Option JSString)
    (k : JSString → Option JSString → Option α) (x : α)
    (h : videoIdRegex.run s cap k = some x) :
    utf16 "youtube.com/" <:+: s ∨ utf16 "youtu.be/" <:+: s := by
  unfold videoIdRegex at h
  rw [Regex.run] at h
  obtain ⟨t₁, c₁, ht₁, h₁⟩ := run_some_suffix _ _ _ _ _ h
  rw [Regex.run] at h₁
  obtain ⟨t₂, c₂, ht₂, h₂⟩ := run_some_suffix _ _ _ _ _ h₁
  have hsuf : t₂ <:+ s := ht₂.trans ht₁
  rw [Regex.run] at h₂
  unfold hostRegex at h₂
  rw [Regex.run] at h₂
  rcases orElse_eq_some h₂ with h₃ | h₃
  · rw [Regex.run] at h₃
    exact Or.inl ((run_lit_some_starts h₃).1.isInfix.trans hsuf.isInfix)
  · exact Or.inr ((run_lit_some_starts h₃).1.isInfix.trans hsuf.isInfix)

/-- Every match of the source expression captures 11 units of `[A-Za-z0-9_-]`. -/
theorem exec_videoIdRegex_some (s : JSString) (m : Option JSString)
    (h : videoIdRegex.exec s = some m) :
    ∃ g, m = some g ∧ g.length = 11 ∧ ∀ c ∈ g, isIdUnit c = true := by
  obtain ⟨t, _, hr⟩ := exec_some_suffix _ _ _ h
  unfold videoIdRegex at hr
  rw [Regex.run] at hr
  obtain ⟨t₁, c₁, _, h₁⟩ := run_some_suffix _ _ _ _ _ hr
  rw [Regex.run] at h₁
  obtain ⟨t₂, c₂, _, h₂⟩ := run_some_suffix _ _ _ _ _ h₁
  rw [Regex.run] at h₂
  obtain ⟨t₃, c₃, _, h₃⟩ := run_some_suffix _ _ _ _ _ h₂
  obtain ⟨g, rest, _, hl, hp, hk⟩ := run_idGroup_some _ _ _ _ h₃
  refine ⟨g, ?_, hl, hp⟩
  simpa using hk.symm

/-! ## The reference extractor -/

/-- C4: every string of exactly 11 code units with neither `.` nor `/` is
returned unchanged, whatever its units. -/
theorem getVideoId_bare_id (url : JSString) (hlen : url.length = 11)
    (hdot : dot ∉ url) (hslash : slash ∉ url) : getVideoId url = some url := by
  have hb : (JSValue.str url).toBoolean = true := by
    cases url with
    | nil => simp at hlen
    | cons c cs => rfl
  simp [getVideoId, hb, hlen, includes, hdot, hslash]

/-- Witness of `getVideoId_bare_id`: the bare identifier `dQw4w9WgXcQ`. -/
theorem getVideoId_bare_id_witness :
    getVideoId (utf16 "dQw4w9WgXcQ") = some (utf16 "dQw4w9WgXcQ") :=
  getVideoId_bare_id (utf16 "dQw4w9WgXcQ") (by decide) (by decide) (by decide)

theorem getVideoId_of_run_some (url id : JSString) (hlen : url.length ≠ 11) (hne : url ≠ [])
    (h : videoIdRegex.run url none (fun _ cap => some cap) = some (some id)) :
    getVideoId url = some id := by
  have hb : (JSValue.str url).toBoolean = true := by
    cases url with
    | nil => exact absurd rfl hne
    | cons c cs => rfl
  unfold getVideoId
  simp [hb, hlen, exec_of_run_some _ _ _ h]

/-- C5: for every 11-unit identifier over `[A-Za-z0-9_-]`, `getVideoId` returns
the identifier from the watch URL, the short URL and the embed URL built on it. -/
theorem getVideoId_url_shapes (id : JSString) (hlen : id.length = 11)
    (hid : ∀ c ∈ id, isIdUnit c = true) :
    getVideoId (utf16 "https://www.youtube.com/watch?v=" ++ id) = some id
    ∧ getVideoId (utf16 "https://youtu.be/" ++ id) = some id
    ∧ getVideoId (utf16 "https://www.youtube.com/embed/" ++ id) = some id := by
  have h1 : utf16 "https://www.youtube.com/watch?v=" =
      [104, 116, 116, 112, 115, 58, 47, 47, 119, 119, 119, 46, 121, 111, 117, 116, 117, 98,
        101, 46, 99, 111, 109, 47, 119, 97, 116, 99, 104, 63, 118, 61] := by decide
  have h2 : utf16 "https://youtu.be/" =
      [104, 116, 116, 112, 115, 58, 47, 47, 121, 111, 117, 116, 117, 46, 98, 101, 47] := by decide
  have h3 : utf16 "https://www.youtube.com/embed/" =
      [104, 116, 116, 112, 115, 58, 47, 47, 119, 119, 119, 46, 121, 111, 117, 116, 117, 98,
        101, 46, 99, 111, 109, 47, 101, 109, 98, 101, 100, 47] := by decide
  have hg : ∀ cap : Option JSString,
      idGroup.run id cap (fun _ cap => some cap) = some (some id) := by
    intro cap
    have := run_idGroup id [] cap (fun _ cap => some cap) hlen hid
    simpa using this
  refine ⟨?_, ?_, ?_⟩
  · apply getVideoId_of_run_some
    · rw [h1]; simp [hlen]
    · rw [h1]; simp
    · rw [h1]
      exact run_frame_long pathRegex idGroup _ none _ _
        (run_pathRegex_watch id none (fun s c => idGroup.run s c (fun _ cap => some cap))
          (some id) hid (hg none))
  · apply getVideoId_of_run_some
    · rw [h2]; simp [hlen]
    · rw [h2]; simp
    · rw [h2]
      exact run_frame_short pathRegex idGroup _ none _ _ (hg none)
  · apply getVideoId_of_run_some
    · rw [h3]; simp [hlen]
    · rw [h3]; simp
    · rw [h3]
      exact run_frame_long pathRegex idGroup _ none _ _
        (run_pathRegex_embed id none (fun s c => idGroup.run s c (fun _ cap => some cap))
          (some id) hid (hg none))

/-- Witness of `getVideoId_url_shapes` at the identifier `dQw4w9WgXcQ`. -/
theorem getVideoId_url_shapes_witness :
    getVideoId (utf16 "https://www.youtube.com/watch?v=" ++ utf16 "dQw4w9WgXcQ")
      = some (utf16 "dQw4w9WgXcQ")
    ∧ getVideoId (utf16 "https://youtu.be/" ++ utf16 "dQw4w9WgXcQ") = some (utf16 "dQw4w9WgXcQ")
    ∧ getVideoId (utf16 "https://www.youtube.com/embed/" ++ utf16 "dQw4w9WgXcQ")
      = some (utf16 "dQw4w9WgXcQ") :=
  getVideoId_url_shapes (utf16 "dQw4w9WgXcQ") (by decide) (by decide)

/-- C6: an input that is not a bare 11-unit identifier and contains neither
`youtube.com/` nor `youtu.be/` is rejected. -/
theorem getVideoId_eq_none (url : JSString)
    (hbare : ¬ (url.length = 11 ∧ dot ∉ url ∧ slash ∉ url))
    (hlong : ¬ (utf16 "youtube.com/" <:+: url))
    (hshort : ¬ (utf16 "youtu.be/" <:+: url)) : getVideoId url = none := by
  have hexec : videoIdRegex.exec url = none := by
    cases hm : videoIdRegex.exec url with
    | none => rfl
    | some m =>
      obtain ⟨t, ht, hr⟩ := exec_some_suffix _ _ _ hm
      rcases host_infix_of_run_some t none _ _ hr with h | h
      · exact absurd (h.trans ht.isInfix) hlong
      · exact absurd (h.trans ht.isInfix) hshort
  unfold getVideoId
  rw [hexec]
  split
  · rfl
  · split
    · rename_i hb
      simp only [includes, Bool.and_eq_true, decide_eq_true_eq, Bool.not_eq_true',
        decide_eq_false_iff_not] at hb
      exact absurd ⟨hb.1.1, hb.1.2, hb.2⟩ hbare
    · rfl

/-- Witness of `getVideoId_eq_none`: `not a url` and the empty input are
rejected. -/
theorem getVideoId_eq_none_witness :
    getVideoId (utf16 "not a url") = none ∧ getVideoId [] = none :=
  ⟨getVideoId_eq_none (utf16 "not a url") (by decide) (by decide) (by decide),
   getVideoId_eq_none [] (by decide) (by decide) (by decide)⟩

/-- What `getVideoId` returns has 11 units, and is the input itself or is made
of units of `[A-Za-z0-9_-]`. -/
theorem getVideoId_some_shape {url id : JSString} (h : getVideoId url = some id) :
    id.length = 11 ∧ (id = url ∨ ∀ c ∈ id, isIdUnit c = true) := by
  unfold getVideoId at h
  split at h
  · simp at h
  · split at h
    · rename_i hb
      simp only [Bool.and_eq_true, decide_eq_true_eq] at hb
      have : url = id := by simpa using h
      subst this
      exact ⟨hb.1.1, Or.inl rfl⟩
    · cases hm : videoIdRegex.exec url with
      | none => rw [hm] at h; simp at h
      | some m =>
        rw [hm] at h
        obtain ⟨g, rfl, hl, hp⟩ := exec_videoIdRegex_some _ _ hm
        have : g = id := by simpa using h
        subst this
        exact ⟨hl, Or.inr hp⟩

theorem getVideoId_some_toBoolean {url id : JSString} (h : getVideoId url = some id) :
    (JSValue.str id).toBoolean = true := by
  have := (getVideoId_some_shape h).1
  cases id with
  | nil => simp at this
  | cons c cs => rfl

/-! ## The session manager -/

theorem clearLoopInterval_player (s : State) : (clearLoopInterval s).player = s.player := by
  unfold clearLoopInterval; split <;> rfl

theorem clearLoopInterval_commands (s : State) :
    (clearLoopInterval s).commands = s.commands := by
  unfold clearLoopInterval; split <;> rfl

theorem clearLoopInterval_inputs (s : State) :
    (clearLoopInterval s).videoUrlInput = s.videoUrlInput
    ∧ (clearLoopInterval s).startTimeInput = s.startTimeInput
    ∧ (clearLoopInterval s).endTimeInput = s.endTimeInput := by
  unfold clearLoopInterval; split <;> exact ⟨rfl, rfl, rfl⟩

/-- The state in which `applyLoop` reads its inputs and validates them. -/
theorem applyLoop_eq (s : State) :
    applyLoop s =
      match getVideoId s.videoUrlInput with
      | none => showError (clearLoopInterval (clearError s)) invalidReferenceMessage
      | some videoId =>
        if parseTime s.startTimeInput = .null ∨ parseTime s.endTimeInput = .null then
          showError (clearLoopInterval (clearError s)) invalidTimeMessage
        else if (parseTime s.startTimeInput).ge (parseTime s.endTimeInput) = true then
          showError (clearLoopInterval (clearError s)) startNotBeforeEndMessage
        else
          match s.player with
          | some p =>
            if p.videoId = videoId then
              issue (issue (clearLoopInterval (clearError s))
                (.seekTo p.handle (parseTime s.startTimeInput) true)) (.playVideo p.handle)
            else
              constructPlayer (issue (clearLoopInterval (clearError s)) (.destroy p.handle))
                videoId (parseTime s.startTimeInput)
          | none =>
            constructPlayer (clearLoopInterval (clearError s)) videoId
              (parseTime s.startTimeInput) := by
  obtain ⟨h1, h2, h3⟩ := clearLoopInterval_inputs (clearError s)
  have hp := clearLoopInterval_player (clearError s)
  unfold applyLoop
  simp only [h1, h2, h3, hp]
  simp only [clearError]
  cases hv : getVideoId s.videoUrlInput with
  | none => rfl
  | some videoId =>
    simp only [getVideoId_some_toBoolean hv, Bool.not_true, Bool.false_eq_true, if_false,
      Bool.or_eq_true, decide_eq_true_eq]

/-- C7: `applyLoop` validates in a fixed order and shows the message of the
first failing step only: an invalid reference gives the invalid-reference
message whatever the bounds; otherwise an invalid bound gives the
invalid-time-format message; otherwise `start >= end` gives the
start-must-precede-end message; the three messages are pairwise distinct. -/
theorem applyLoop_validation_order (s : State) :
    (getVideoId s.videoUrlInput = none →
      (applyLoop s).errorMessage = .text invalidReferenceMessage)
    ∧ (getVideoId s.videoUrlInput ≠ none →
        (isInvalidBound (parseTime s.startTimeInput) = true
          ∨ isInvalidBound (parseTime s.endTimeInput) = true) →
        (applyLoop s).errorMessage = .text invalidTimeMessage)
    ∧ (getVideoId s.videoUrlInput ≠ none →
        isInvalidBound (parseTime s.startTimeInput) = false →
        isInvalidBound (parseTime s.endTimeInput) = false →
        (parseTime s.startTimeInput).ge (parseTime s.endTimeInput) = true →
        (applyLoop s).errorMessage = .text startNotBeforeEndMessage)
    ∧ invalidReferenceMessage ≠ invalidTimeMessage
    ∧ invalidReferenceMessage ≠ startNotBeforeEndMessage
    ∧ invalidTimeMessage ≠ startNotBeforeEndMessage := by
  refine ⟨?_, ?_, ?_, by decide, by decide, by decide⟩
  · intro h
    rw [applyLoop_eq, h]; rfl
  · intro h hb
    obtain ⟨id, hid⟩ := Option.ne_none_iff_exists'.1 h
    have hb' : parseTime s.startTimeInput = .null ∨ parseTime s.endTimeInput = .null := by
      simpa [isInvalidBound] using hb
    rw [applyLoop_eq, hid]
    simp only [if_pos hb']; rfl
  · intro h hs he hge
    obtain ⟨id, hid⟩ := Option.ne_none_iff_exists'.1 h
    have hb' : ¬ (parseTime s.startTimeInput = .null ∨ parseTime s.endTimeInput = .null) := by
      simp only [isInvalidBound, beq_eq_false_iff_ne, ne_eq] at hs he
      exact fun h => h.elim hs he
    rw [applyLoop_eq, hid]
    simp only [if_neg hb', if_pos hge]; rfl

/-- Witness of `applyLoop_validation_order`: each of the three failures occurs. -/
theorem applyLoop_validation_order_witness :
    (applyLoop (loopingState (utf16 "not a url") (utf16 "abc") (utf16 "5"))).errorMessage
      = .text invalidReferenceMessage
    ∧ (applyLoop (loopingState (utf16 "dQw4w9WgXcQ") (utf16 "abc") (utf16 "5"))).errorMessage
      = .text invalidTimeMessage
    ∧ (applyLoop (loopingState (utf16 "dQw4w9WgXcQ") (utf16 "30") (utf16 "5"))).errorMessage
      = .text startNotBeforeEndMessage :=
  ⟨(applyLoop_validation_order _).1 (by decide!),
   (applyLoop_validation_order _).2.1 (by decide!) (by decide!),
   (applyLoop_validation_order _).2.2.1 (by decide!) (by decide!) (by decide!) (by decide!)⟩

/-- C8: with a valid reference and valid bounds where `start >= end`,
`applyLoop` rejects and leaves the session alone: the player reference is
unchanged and no command is issued to any player. -/
theorem applyLoop_rejects_inverted_bounds (s : State) (id : JSString)
    (href : getVideoId s.videoUrlInput = some id)
    (hstart : isInvalidBound (parseTime s.startTimeInput) = false)
    (hend : isInvalidBound (parseTime s.endTimeInput) = false)
    (hge : (parseTime s.startTimeInput).ge (parseTime s.endTimeInput) = true) :
    (applyLoop s).player = s.player
    ∧ (applyLoop s).commands = s.commands
    ∧ (applyLoop s).errorMessage = .text startNotBeforeEndMessage := by
  have hb' : ¬ (parseTime s.startTimeInput = .null ∨ parseTime s.endTimeInput = .null) := by
    simp only [isInvalidBound, beq_eq_false_iff_ne, ne_eq] at hstart hend
    exact fun h => h.elim hstart hend
  rw [applyLoop_eq, href]
  simp only [if_neg hb', if_pos hge]
  refine ⟨?_, ?_, rfl⟩
  · exact clearLoopInterval_player _
  · exact clearLoopInterval_commands _

/-- Witness of `applyLoop_rejects_inverted_bounds`: a looping page asked to loop
from `30` to `5`. -/
theorem applyLoop_rejects_inverted_bounds_witness :
    (applyLoop (loopingState (utf16 "dQw4w9WgXcQ") (utf16 "30") (utf16 "5"))).player
      = (loopingState (utf16 "dQw4w9WgXcQ") (utf16 "30") (utf16 "5")).player
    ∧ (applyLoop (loopingState (utf16 "dQw4w9WgXcQ") (utf16 "30") (utf16 "5"))).commands
      = (loopingState (utf16 "dQw4w9WgXcQ") (utf16 "30") (utf16 "5")).commands
    ∧ (applyLoop (loopingState (utf16 "dQw4w9WgXcQ") (utf16 "30") (utf16 "5"))).errorMessage
      = .text startNotBeforeEndMessage :=
  applyLoop_rejects_inverted_bounds _ (utf16 "dQw4w9WgXcQ")
    (by decide!) (by decide!) (by decide!) (by decide!)

theorem lt_of_ge_eq_false {a b : JSNumber} (h : a.ge b = false)
    (ha : a.isNaN = false) (hb : b.isNaN = false) : a.lt b = true := by
  cases a <;> cases b <;> simp_all [JSNumber.ge, JSNumber.isNaN]

/-- C9 (as amended): whenever `applyLoop` accepts its inputs, both parsed
bounds are numbers (not `null`) and `start >= end` is false; when neither is
`NaN` this is `startSeconds < endSeconds`.  No lower bound is checked. -/
theorem applyLoop_accepted_bounds (s : State) (h : accepts s = true) :
    ∃ a b, parseTime s.startTimeInput = .num a ∧ parseTime s.endTimeInput = .num b
      ∧ a.ge b = false
      ∧ (a.isNaN = false → b.isNaN = false → a.lt b = true) := by
  have hc : (applyLoop s).commands ≠ s.commands := by simpa [accepts] using h
  rw [applyLoop_eq] at hc
  cases hv : getVideoId s.videoUrlInput with
  | none =>
    rw [hv] at hc
    exact absurd (clearLoopInterval_commands _) hc
  | some id =>
    rw [hv] at hc
    simp only at hc
    by_cases hb : parseTime s.startTimeInput = .null ∨ parseTime s.endTimeInput = .null
    · rw [if_pos hb] at hc
      exact absurd (clearLoopInterval_commands _) hc
    · rw [if_neg hb] at hc
      by_cases hge : (parseTime s.startTimeInput).ge (parseTime s.endTimeInput) = true
      · rw [if_pos hge] at hc
        exact absurd (clearLoopInterval_commands _) hc
      · push_neg at hb
        rcases parseTime_null_or_num s.startTimeInput with h1 | ⟨a, ha⟩
        · exact absurd h1 hb.1
        rcases parseTime_null_or_num s.endTimeInput with h2 | ⟨b, hb2⟩
        · exact absurd h2 hb.2
        have hge' : a.ge b = false := by
          rw [ha, hb2] at hge
          simpa [JSValue.ge, JSValue.toNumber] using hge
        exact ⟨a, b, ha, hb2, hge', lt_of_ge_eq_false hge'⟩

/-- Witness of `applyLoop_accepted_bounds`: the page as loaded, asked to loop
`dQw4w9WgXcQ` from `1:30` to `95.5`. -/
theorem applyLoop_accepted_bounds_witness :
    ∃ a b, parseTime (utf16 "1:30") = .num a ∧ parseTime (utf16 "95.5") = .num b
      ∧ a.ge b = false
      ∧ (a.isNaN = false → b.isNaN = false → a.lt b = true) :=
  applyLoop_accepted_bounds
    { initialState with videoUrlInput := utf16 "dQw4w9WgXcQ", startTimeInput := utf16 "1:30",
                        endTimeInput := utf16 "95.5" } (by decide!)

/-- C9 (as stated) fails: asked to loop `dQw4w9WgXcQ` from `-5` to `10`, the
page as loaded accepts (it constructs a player that starts at `-5`), though
`0 <= startSeconds` does not hold. -/
theorem applyLoop_accepts_negative_start :
    accepts { initialState with videoUrlInput := utf16 "dQw4w9WgXcQ",
                                startTimeInput := utf16 "-5", endTimeInput := utf16 "10" } = true
    ∧ (applyLoop { initialState with videoUrlInput := utf16 "dQw4w9WgXcQ",
                                     startTimeInput := utf16 "-5",
                                     endTimeInput := utf16 "10" }).commands
        = [.construct 1 (utf16 "dQw4w9WgXcQ") 1 1 (.num (.fin (-5)))]
    ∧ parseTime (utf16 "-5") = .num (.fin (-5))
    ∧ parseTime (utf16 "10") = .num (.fin 10)
    ∧ satisfiesLoopConfigInvariant (parseTime (utf16 "-5")) (parseTime (utf16 "10")) = false := by
  decide!

/-- C10: when validation passes and the existing player already shows the
requested video, `applyLoop` keeps the player and issues exactly
`seekTo(startSeconds, true)` followed by `playVideo`. -/
theorem applyLoop_same_video (s : State) (p : Player) (id : JSString)
    (hplayer : s.player = some p)
    (href : getVideoId s.videoUrlInput = some id)
    (hsame : p.videoId = id)
    (hstart : isInvalidBound (parseTime s.startTimeInput) = false)
    (hend : isInvalidBound (parseTime s.endTimeInput) = false)
    (hlt : (parseTime s.startTimeInput).ge (parseTime s.endTimeInput) = false) :
    (applyLoop s).player = s.player
    ∧ (applyLoop s).commands = s.commands ++
        [.seekTo p.handle (parseTime s.startTimeInput) true, .playVideo p.handle] := by
  have hb' : ¬ (parseTime s.startTimeInput = .null ∨ parseTime s.endTimeInput = .null) := by
    simp only [isInvalidBound, beq_eq_false_iff_ne, ne_eq] at hstart hend
    exact fun h => h.elim hstart hend
  have hge : ¬ ((parseTime s.startTimeInput).ge (parseTime s.endTimeInput) = true) := by
    simp [hlt]
  rw [applyLoop_eq, href]
  simp only [if_neg hb', if_neg hge, hplayer, if_pos hsame]
  refine ⟨?_, ?_⟩
  · simp only [issue]
    rw [clearLoopInterval_player]
    simp [clearError, hplayer]
  · simp only [issue, List.append_assoc, List.singleton_append]
    rw [clearLoopInterval_commands]
    simp [clearError]

/-- Witness of `applyLoop_same_video`: a looping page asked to loop the same
video from `5` to `30`. -/
theorem applyLoop_same_video_witness :
    (applyLoop (loopingState (utf16 "https://youtu.be/dQw4w9WgXcQ") (utf16 "5") (utf16 "0:30"))).player
      = (loopingState (utf16 "https://youtu.be/dQw4w9WgXcQ") (utf16 "5") (utf16 "0:30")).player
    ∧ (applyLoop (loopingState (utf16 "https://youtu.be/dQw4w9WgXcQ") (utf16 "5") (utf16 "0:30"))).commands
      = (loopingState (utf16 "https://youtu.be/dQw4w9WgXcQ") (utf16 "5") (utf16 "0:30")).commands ++
        [.seekTo 0 (parseTime (utf16 "5")) true, .playVideo 0] :=
  applyLoop_same_video _ { handle := 0, videoId := utf16 "dQw4w9WgXcQ" } (utf16 "dQw4w9WgXcQ")
    (by decide!) (by decide!) (by decide!) (by decide!) (by decide!) (by decide!)

/-! ## The reference extractor is idempotent -/

theorem getVideoId_of_isIdUnit (v : JSString) (hlen : v.length = 11)
    (hid : ∀ c ∈ v, isIdUnit c = true) : getVideoId v = some v := by
  have hb : (JSValue.str v).toBoolean = true := by
    cases v with
    | nil => simp at hlen
    | cons c cs => rfl
  have hdot : dot ∉ v := by
    intro h
    have := hid dot h
    revert this; decide
  have hslash : slash ∉ v := slash_not_mem_of_isIdUnit hid
  simp [getVideoId, hb, hlen, includes, hdot, hslash]

/-- C20: `getVideoId` is idempotent on its results: an identifier it returns,
passed through as a bare id or taken from a URL, is returned unchanged when
given back to it. -/
theorem getVideoId_idempotent (x v : JSString) (h : getVideoId x = some v) :
    getVideoId v = some v := by
  obtain ⟨hlen, hx | hid⟩ := getVideoId_some_shape h
  · rw [hx]; rw [hx] at h; exact h
  · exact getVideoId_of_isIdUnit v hlen hid

/-- Witness of `getVideoId_idempotent`: the identifier taken from a watch URL. -/
theorem getVideoId_idempotent_witness :
    getVideoId (utf16 "dQw4w9WgXcQ") = some (utf16 "dQw4w9WgXcQ") :=
  getVideoId_idempotent (utf16 "https://www.youtube.com/watch?v=dQw4w9WgXcQ&t=3")
    (utf16 "dQw4w9WgXcQ") (by decide!)

/-! ## The tick -/

/-- C16: a tick that runs right after `stopAndClear` changes nothing: no
command is issued and the state is the one `stopAndClear` left, whatever the
player would have answered. -/
theorem checkLoop_after_stopAndClear (s : State) (getCurrentTime : Option JSValue) :
    checkLoop (stopAndClear s) getCurrentTime = stopAndClear s := by
  have hp : (stopAndClear s).player = none := by
    unfold stopAndClear clearError
    simp only
    split <;> simp_all
  unfold checkLoop
  simp only [hp]

theorem ge_eq_false_of_lt {a b : JSNumber} (h : a.lt b = true) : a.ge b = false := by
  cases a <;> cases b <;> simp_all [JSNumber.ge, JSNumber.lt]

/-- C13 (as amended): on a tick with a player present and both bounds parsed
as numbers, nothing is issued when the position is undefined (or
`getCurrentTime` is not yet a function) or less than the end bound; when the
position is at or past the end bound, exactly one command is issued, the
seek to the start bound in exact mode.  No play command is issued. -/
theorem checkLoop_tick (s : State) (p : Player) (a b : JSNumber)
    (hplayer : s.player = some p)
    (hstart : parseTime s.startTimeInput = .num a)
    (hend : parseTime s.endTimeInput = .num b) :
    checkLoop s none = s
    ∧ checkLoop s (some .undefined) = s
    ∧ (∀ t : JSNumber, t.lt b = true → checkLoop s (some (.num t)) = s)
    ∧ (∀ t : JSNumber, t.ge b = true →
        checkLoop s (some (.num t)) = issue s (.seekTo p.handle (.num a) true)
        ∧ (checkLoop s (some (.num t))).commands
            = s.commands ++ [.seekTo p.handle (.num a) true]) := by
  refine ⟨?_, ?_, ?_, ?_⟩
  · simp [checkLoop, hplayer]
  · have : JSValue.ge .undefined (.num b) = false := by cases b <;> rfl
    simp [checkLoop, hplayer, hend, this]
  · intro t ht
    have : JSValue.ge (.num t) (.num b) = false := ge_eq_false_of_lt ht
    simp [checkLoop, hplayer, hend, this]
  · intro t ht
    have : JSValue.ge (.num t) (.num b) = true := ht
    simp [checkLoop, hplayer, hend, hstart, this, issue]

/-- Witness of `checkLoop_tick`: a page looping from `5` to `30` ticks at
positions `12` and `31`. -/
theorem checkLoop_tick_witness :
    checkLoop (loopingState (utf16 "dQw4w9WgXcQ") (utf16 "5") (utf16 "30"))
        (some (.num (.fin 12)))
      = loopingState (utf16 "dQw4w9WgXcQ") (utf16 "5") (utf16 "30")
    ∧ (checkLoop (loopingState (utf16 "dQw4w9WgXcQ") (utf16 "5") (utf16 "30"))
        (some (.num (.fin 31)))).commands
      = (loopingState (utf16 "dQw4w9WgXcQ") (utf16 "5") (utf16 "30")).commands
          ++ [.seekTo 0 (.num (.fin 5)) true] :=
  ⟨(checkLoop_tick _ { handle := 0, videoId := utf16 "dQw4w9WgXcQ" } (.fin 5) (.fin 30)
      (by decide!) (by decide!) (by decide!)).2.2.1 (.fin 12) (by decide!),
   ((checkLoop_tick _ { handle := 0, videoId := utf16 "dQw4w9WgXcQ" } (.fin 5) (.fin 30)
      (by decide!) (by decide!) (by decide!)).2.2.2 (.fin 31) (by decide!)).2⟩

/-- C13 (as stated) fails: a page looping from `5` to `30` that ticks at
position `31` issues the seek to `5` and nothing else; no command to resume
playback is issued. -/
theorem checkLoop_issues_no_play :
    parseTime (utf16 "5") = .num (.fin 5) ∧ parseTime (utf16 "30") = .num (.fin 30)
    ∧ (checkLoop (loopingState (utf16 "dQw4w9WgXcQ") (utf16 "5") (utf16 "30"))
        (some (.num (.fin 31)))).commands
      = (loopingState (utf16 "dQw4w9WgXcQ") (utf16 "5") (utf16 "30")).commands
          ++ [.seekTo 0 (.num (.fin 5)) true]
    ∧ Command.playVideo 0 ∉
        (checkLoop (loopingState (utf16 "dQw4w9WgXcQ") (utf16 "5") (utf16 "30"))
          (some (.num (.fin 31)))).commands := by
  decide!

/-- C18: with the end input malformed (`abc`, parsed as `null`) a tick at
position `3` issues a seek to the start bound `5`, because `3 >= null` is
`3 >= 0`; with the start input malformed and the end bound `30`, a tick at
position `31` issues `seekTo(null, true)`. -/
theorem checkLoop_seeks_on_malformed_bound :
    parseTime (utf16 "abc") = .null
    ∧ (checkLoop (loopingState (utf16 "dQw4w9WgXcQ") (utf16 "5") (utf16 "abc"))
        (some (.num (.fin 3)))).commands
      = (loopingState (utf16 "dQw4w9WgXcQ") (utf16 "5") (utf16 "abc")).commands
          ++ [.seekTo 0 (.num (.fin 5)) true]
    ∧ (checkLoop (loopingState (utf16 "dQw4w9WgXcQ") (utf16 "abc") (utf16 "30"))
        (some (.num (.fin 31)))).commands
      = (loopingState (utf16 "dQw4w9WgXcQ") (utf16 "abc") (utf16 "30")).commands
          ++ [.seekTo 0 .null true] := by
  decide!

/-! ## Player errors -/

theorem linkTo_infix_embeddingDisabledMessage (url : JSString) :
    linkTo url <:+: embeddingDisabledMessage url := by
  have hsplit : utf16 "The video owner has disabled playback on other websites. <a href="
      = utf16 "The video owner has disabled playback on other websites. " ++ utf16 "<a href=" := by
    decide!
  refine ⟨utf16 "The video owner has disabled playback on other websites. ",
    utf16 " target=" ++ [quote] ++ utf16 "_blank" ++ [quote] ++ utf16 ">Watch on YouTube</a>", ?_⟩
  unfold embeddingDisabledMessage linkTo
  rw [hsplit]
  simp only [List.append_assoc]

/-- C14: with a session present, `onPlayerError` shows the message of the
table: code 2 the invalid-identifier message, 5 the HTML5 player message, 100
the not-found message, 101 and 150 one and the same embedding-disabled
message, which holds a link to the watch URL of the session's video, and
every other code the unknown-error message, which holds no link. -/
theorem onPlayerError_message (s : State) (p : Player) (code : Int)
    (hplayer : s.player = some p) :
    ∃ s₁ msg, onPlayerError s code = .ok s₁ ∧ s₁.errorMessage = .html msg
      ∧ (code = 2 → msg = invalidIdMessage)
      ∧ (code = 5 → msg = html5ErrorMessage)
      ∧ (code = 100 → msg = notFoundMessage)
      ∧ (code = 101 ∨ code = 150 →
          msg = embeddingDisabledMessage (watchUrl p.videoId)
          ∧ linkTo (watchUrl p.videoId) <:+: msg)
      ∧ (code ≠ 2 → code ≠ 5 → code ≠ 100 → code ≠ 101 → code ≠ 150 →
          msg = unknownErrorMessage ∧ ¬ (utf16 "<a" <:+: msg)) := by
  have hp : (clearLoopInterval s).player = some p := by
    rw [clearLoopInterval_player]; exact hplayer
  unfold onPlayerError
  simp only [hp]
  refine ⟨_, _, rfl, rfl, ?_, ?_, ?_, ?_, ?_⟩
  · intro h; simp [h]
  · intro h; simp [h]
  · intro h; simp [h]
  · intro h
    have hmsg : (if code = 2 then invalidIdMessage
        else if code = 5 then html5ErrorMessage
        else if code = 100 then notFoundMessage
        else if code = 101 ∨ code = 150 then
          embeddingDisabledMessage (utf16 "https://www.youtube.com/watch?v=" ++ p.videoId)
        else unknownErrorMessage) = embeddingDisabledMessage (watchUrl p.videoId) := by
      rcases h with h | h <;> simp [h, watchUrl]
    rw [hmsg]
    exact ⟨rfl, linkTo_infix_embeddingDisabledMessage _⟩
  · intro h2 h5 h100 h101 h150
    have hmsg : (if code = 2 then invalidIdMessage
        else if code = 5 then html5ErrorMessage
        else if code = 100 then notFoundMessage
        else if code = 101 ∨ code = 150 then
          embeddingDisabledMessage (utf16 "https://www.youtube.com/watch?v=" ++ p.videoId)
        else unknownErrorMessage) = unknownErrorMessage := by
      simp [h2, h5, h100, h101, h150]
    rw [hmsg]
    exact ⟨rfl, by decide!⟩

/-- Witness of `onPlayerError_message`: code 150 on a page that shows
`dQw4w9WgXcQ`. -/
theorem onPlayerError_message_witness :
    ∃ s₁, onPlayerError (loopingState [] [] []) 150 = .ok s₁
      ∧ s₁.errorMessage = .html (embeddingDisabledMessage (watchUrl (utf16 "dQw4w9WgXcQ")))
      ∧ linkTo (watchUrl (utf16 "dQw4w9WgXcQ"))
          <:+: embeddingDisabledMessage (watchUrl (utf16 "dQw4w9WgXcQ")) :=
  match onPlayerError_message (loopingState [] [] [])
      { handle := 0, videoId := utf16 "dQw4w9WgXcQ" } 150 rfl with
  | ⟨s₁, _, h1, h2, _, _, _, h4, _⟩ =>
    ⟨s₁, h1, by rw [h2, (h4 (Or.inr rfl)).1], by
      have := (h4 (Or.inr rfl)).2; rw [(h4 (Or.inr rfl)).1] at this; exact this⟩

/-! ## Validation failures -/

theorem loopActive_clearLoopInterval (s : State) : loopActive (clearLoopInterval s) = false := by
  unfold loopActive clearLoopInterval
  cases h : s.loopInterval with
  | none => simp [h]
  | some t => simp [h]

theorem applyLoop_of_failsValidation (s : State) (h : failsValidation s = true) :
    ∃ msg, msg ∈ [invalidReferenceMessage, invalidTimeMessage, startNotBeforeEndMessage]
      ∧ applyLoop s = showError (clearLoopInterval (clearError s)) msg := by
  rw [applyLoop_eq]
  cases hv : getVideoId s.videoUrlInput with
  | none => exact ⟨_, by simp, rfl⟩
  | some id =>
    simp only
    by_cases hb : parseTime s.startTimeInput = .null ∨ parseTime s.endTimeInput = .null
    · rw [if_pos hb]; exact ⟨_, by simp, rfl⟩
    · rw [if_neg hb]
      by_cases hge : (parseTime s.startTimeInput).ge (parseTime s.endTimeInput) = true
      · rw [if_pos hge]; exact ⟨_, by simp, rfl⟩
      · exfalso
        push_neg at hb
        simp [failsValidation, hv, isInvalidBound, hb.1, hb.2, hge] at h

/-- C17 (as amended): an `applyLoop` call that fails validation leaves the
session alone (same player, no command, same inputs) and shows one of the
three messages, but it stops the Loop Controller: the timer that
`loopInterval` holds is cancelled before validation, so the Loop Controller
is not Active afterwards. -/
theorem applyLoop_validation_failure (s : State) (h : failsValidation s = true) :
    (applyLoop s).player = s.player
    ∧ (applyLoop s).commands = s.commands
    ∧ (applyLoop s).videoUrlInput = s.videoUrlInput
    ∧ (applyLoop s).startTimeInput = s.startTimeInput
    ∧ (applyLoop s).endTimeInput = s.endTimeInput
    ∧ (applyLoop s).loopInterval = s.loopInterval
    ∧ loopActive (applyLoop s) = false
    ∧ ((applyLoop s).errorMessage = .text invalidReferenceMessage
        ∨ (applyLoop s).errorMessage = .text invalidTimeMessage
        ∨ (applyLoop s).errorMessage = .text startNotBeforeEndMessage) := by
  obtain ⟨msg, hmsg, heq⟩ := applyLoop_of_failsValidation s h
  obtain ⟨h1, h2, h3⟩ := clearLoopInterval_inputs (clearError s)
  have hact := loopActive_clearLoopInterval (clearError s)
  have hli : (clearLoopInterval (clearError s)).loopInterval = s.loopInterval := by
    unfold clearLoopInterval; split <;> rfl
  rw [heq]
  refine ⟨?_, ?_, h1, h2, h3, hli, ?_, ?_⟩
  · exact clearLoopInterval_player _
  · exact clearLoopInterval_commands _
  · exact hact
  · simp only [List.mem_cons, List.mem_singleton, List.not_mem_nil, or_false] at hmsg
    rcases hmsg with rfl | rfl | rfl
    · exact Or.inl rfl
    · exact Or.inr (Or.inl rfl)
    · exact Or.inr (Or.inr rfl)

/-- Witness of `applyLoop_validation_failure`: a looping page asked to loop
`not a url`. -/
theorem applyLoop_validation_failure_witness :
    (applyLoop (loopingState (utf16 "not a url") (utf16 "5") (utf16 "30"))).player
      = (loopingState (utf16 "not a url") (utf16 "5") (utf16 "30")).player
    ∧ loopActive (applyLoop (loopingState (utf16 "not a url") (utf16 "5") (utf16 "30")))
      = false :=
  ⟨(applyLoop_validation_failure _ (by decide!)).1,
   (applyLoop_validation_failure _ (by decide!)).2.2.2.2.2.2.1⟩

/-- C17 (as stated) fails: a page that is looping (Loop Controller Active) and
is asked to loop `not a url` fails validation, and afterwards no timer runs:
the Loop Controller is not Active any more. -/
theorem applyLoop_failure_stops_loop :
    loopActive (loopingState (utf16 "not a url") (utf16 "5") (utf16 "30")) = true
    ∧ failsValidation (loopingState (utf16 "not a url") (utf16 "5") (utf16 "30")) = true
    ∧ (applyLoop (loopingState (utf16 "not a url") (utf16 "5") (utf16 "30"))).timers = []
    ∧ loopActive (applyLoop (loopingState (utf16 "not a url") (utf16 "5") (utf16 "30")))
      = false := by
  decide!

/-! ## One session at a time -/

theorem liveSessions_concat (l : List Command) (c : Command) :
    liveSessions (l ++ [c]) = liveAfter (liveSessions l) c := by
  simp [liveSessions, List.foldl_append]

theorem singleSession_of_eq {s t : State} (hs : SingleSession s)
    (hc : t.commands = s.commands) (hp : t.player = s.player) : SingleSession t := by
  unfold SingleSession at hs ⊢
  rw [hc, hp]; exact hs

theorem singleSession_issue {s : State} (hs : SingleSession s) (c : Command) (live : List Nat)
    (hlive : liveAfter (liveSessions s.commands) c = live) (hlen : live.length ≤ 1)
    (pl : Option Player) (hpl : live = (pl.map (fun p => p.handle)).toList)
    (t : State) (hc : t.commands = s.commands ++ [c]) (hp : t.player = pl) :
    SingleSession t := by
  unfold SingleSession
  rw [hc, hp, liveSessions_concat, hlive]
  refine ⟨hpl, ?_⟩
  intro l hl
  rcases List.prefix_concat_iff.1 hl with rfl | hl
  · rw [liveSessions_concat, hlive]; exact hlen
  · exact hs.2 l hl

theorem singleSession_seek {s : State} (hs : SingleSession s) (h : Nat) (v : JSValue) (b : Bool) :
    SingleSession (issue s (.seekTo h v b)) := by
  refine singleSession_issue hs (.seekTo h v b) (liveSessions s.commands) rfl ?_ s.player hs.1
    _ rfl rfl
  exact hs.2 _ (List.prefix_refl _)

theorem singleSession_play {s : State} (hs : SingleSession s) (h : Nat) :
    SingleSession (issue s (.playVideo h)) := by
  refine singleSession_issue hs (.playVideo h) (liveSessions s.commands) rfl ?_ s.player hs.1
    _ rfl rfl
  exact hs.2 _ (List.prefix_refl _)

theorem singleSession_destroy {s : State} (hs : SingleSession s) (p : Player)
    (hp : s.player = some p) :
    SingleSession { issue s (.destroy p.handle) with player := none } := by
  have hlive : liveSessions s.commands = [p.handle] := by rw [hs.1, hp]; rfl
  refine singleSession_issue hs (.destroy p.handle) [] ?_ (by simp) none rfl _ rfl rfl
  simp [liveAfter, hlive]

theorem singleSession_construct {s : State} (hs : SingleSession s) (hp : s.player = none)
    (videoId : JSString) (startTime : JSValue) :
    SingleSession (constructPlayer s videoId startTime) := by
  have hlive : liveSessions s.commands = [] := by rw [hs.1, hp]; rfl
  refine singleSession_issue hs (.construct s.nextPlayer videoId 1 1 startTime) [s.nextPlayer]
    ?_ (by simp) (some { handle := s.nextPlayer, videoId := videoId }) rfl _ rfl rfl
  simp [liveAfter, hlive]

theorem singleSession_initialState : SingleSession initialState := by
  refine ⟨rfl, ?_⟩
  intro l hl
  have : l = [] := List.prefix_nil.1 hl
  rw [this]; exact Nat.zero_le _

theorem singleSession_applyLoop {s : State} (hs : SingleSession s) :
    SingleSession (applyLoop s) := by
  have h0 : SingleSession (clearLoopInterval (clearError s)) :=
    singleSession_of_eq hs (clearLoopInterval_commands _) (clearLoopInterval_player _)
  have hp0 : (clearLoopInterval (clearError s)).player = s.player := clearLoopInterval_player _
  rw [applyLoop_eq]
  cases hv : getVideoId s.videoUrlInput with
  | none => exact singleSession_of_eq h0 rfl rfl
  | some id =>
    simp only
    split
    · exact singleSession_of_eq h0 rfl rfl
    · split
      · exact singleSession_of_eq h0 rfl rfl
      · cases hpl : s.player with
        | none =>
          simp only
          exact singleSession_construct h0 (by rw [hp0, hpl]) _ _
        | some p =>
          simp only
          split
          · exact singleSession_play (singleSession_seek h0 _ _ _) _
          · have hd := singleSession_destroy h0 p (by rw [hp0, hpl])
            have hc := singleSession_construct hd rfl id (parseTime s.startTimeInput)
            exact singleSession_of_eq hc rfl rfl

theorem singleSession_stopAndClear {s : State} (hs : SingleSession s) :
    SingleSession (stopAndClear s) := by
  have h0 : SingleSession (clearLoopInterval s) :=
    singleSession_of_eq hs (clearLoopInterval_commands _) (clearLoopInterval_player _)
  have hp0 : (clearLoopInterval s).player = s.player := clearLoopInterval_player _
  unfold stopAndClear
  simp only
  cases hpl : (clearLoopInterval s).player with
  | none => exact singleSession_of_eq h0 rfl (by simp [clearError, hpl])
  | some p => exact singleSession_of_eq (singleSession_destroy h0 p hpl) rfl rfl

theorem onPlayerError_eq (s : State) (code : Int) :
    (s.player = none ∧ onPlayerError s code = .error (clearLoopInterval s))
    ∨ ∃ p msg, s.player = some p
        ∧ onPlayerError s code = .ok { clearLoopInterval s with errorMessage := .html msg } := by
  have hp := clearLoopInterval_player s
  cases hpl : s.player with
  | none =>
    rw [hpl] at hp
    left
    refine ⟨rfl, ?_⟩
    unfold onPlayerError
    simp only [hp]
  | some p =>
    rw [hpl] at hp
    right
    refine ⟨p, (if code = 2 then invalidIdMessage
        else if code = 5 then html5ErrorMessage
        else if code = 100 then notFoundMessage
        else if code = 101 ∨ code = 150 then
          embeddingDisabledMessage (utf16 "https://www.youtube.com/watch?v=" ++ p.videoId)
        else unknownErrorMessage), rfl, ?_⟩
    unfold onPlayerError
    simp only [hp]

theorem step_error_frame (s : State) (code : Int) :
    (step s (.error code)).player = s.player
    ∧ (step s (.error code)).commands = s.commands
    ∧ (step s (.error code)).timers = (clearLoopInterval s).timers
    ∧ (step s (.error code)).loopInterval = s.loopInterval := by
  have hp := clearLoopInterval_player s
  have hc := clearLoopInterval_commands s
  have hl : (clearLoopInterval s).loopInterval = s.loopInterval := by
    unfold clearLoopInterval; split <;> rfl
  rcases onPlayerError_eq s code with ⟨_, h⟩ | ⟨p, msg, _, h⟩
  · have hs : step s (.error code) = clearLoopInterval s := by simp only [step, h]
    rw [hs]; exact ⟨hp, hc, rfl, hl⟩
  · have hs : step s (.error code)
        = { clearLoopInterval s with errorMessage := .html msg } := by simp only [step, h]
    rw [hs]; exact ⟨hp, hc, rfl, hl⟩

theorem singleSession_step {s : State} (hs : SingleSession s) (e : Event) :
    SingleSession (step s e) := by
  cases e with
  | setInputs url st en => exact singleSession_of_eq hs rfl rfl
  | applyLoop => exact singleSession_applyLoop hs
  | stopAndClear => exact singleSession_stopAndClear hs
  | stateChange data =>
    show SingleSession (onStateChange s data)
    unfold onStateChange
    split
    · exact singleSession_of_eq hs rfl rfl
    · exact singleSession_of_eq hs (clearLoopInterval_commands _) (clearLoopInterval_player _)
  | error code =>
    exact singleSession_of_eq hs (step_error_frame s code).2.1 (step_error_frame s code).1
  | tick t =>
    show SingleSession (checkLoop s t)
    unfold checkLoop
    simp only
    split
    · split
      · exact singleSession_seek hs _ _ _
      · exact hs
    · exact hs

/-- In every state the page can reach, at most one session has ever been live
at a time, and the live one is the player the script holds. -/
theorem singleSession_of_reachable {s : State} (h : Reachable s) : SingleSession s := by
  obtain ⟨events, rfl⟩ := h
  unfold runEvents
  have key : ∀ (es : List Event) (s₀ : State), SingleSession s₀ →
      SingleSession (es.foldl step s₀) := by
    intro es
    induction es with
    | nil => intro s₀ h₀; exact h₀
    | cons e es ih => intro s₀ h₀; exact ih _ (singleSession_step h₀ e)
  exact key events initialState singleSession_initialState

/-- C11: in a reachable state whose player shows another video, an accepted
`applyLoop` destroys the old player and then constructs the new one, for the
requested identifier, with autoplay on and the start offset `startSeconds`;
afterwards the new session is the only live one, and at no point of the log
are two sessions live. -/
theorem applyLoop_replaces_player (s : State) (hreach : Reachable s) (p : Player)
    (id : JSString) (hplayer : s.player = some p)
    (href : getVideoId s.videoUrlInput = some id) (hdiff : p.videoId ≠ id)
    (hstart : isInvalidBound (parseTime s.startTimeInput) = false)
    (hend : isInvalidBound (parseTime s.endTimeInput) = false)
    (hlt : (parseTime s.startTimeInput).ge (parseTime s.endTimeInput) = false) :
    (applyLoop s).commands = s.commands ++
        [.destroy p.handle, .construct s.nextPlayer id 1 1 (parseTime s.startTimeInput)]
    ∧ (applyLoop s).player = some { handle := s.nextPlayer, videoId := id }
    ∧ liveSessions (s.commands ++ [.destroy p.handle]) = []
    ∧ liveSessions (applyLoop s).commands = [s.nextPlayer]
    ∧ ∀ l, l <+: (applyLoop s).commands → (liveSessions l).length ≤ 1 := by
  have hs := singleSession_of_reachable hreach
  have hs' := singleSession_applyLoop hs
  have hb' : ¬ (parseTime s.startTimeInput = .null ∨ parseTime s.endTimeInput = .null) := by
    simp only [isInvalidBound, beq_eq_false_iff_ne, ne_eq] at hstart hend
    exact fun h => h.elim hstart hend
  have hge : ¬ ((parseTime s.startTimeInput).ge (parseTime s.endTimeInput) = true) := by
    simp [hlt]
  have heq : applyLoop s = constructPlayer
      (issue (clearLoopInterval (clearError s)) (.destroy p.handle)) id
      (parseTime s.startTimeInput) := by
    rw [applyLoop_eq, href]
    simp only [if_neg hb', if_neg hge, hplayer, if_neg hdiff]
  have hcmd : (applyLoop s).commands = s.commands ++
      [.destroy p.handle, .construct s.nextPlayer id 1 1 (parseTime s.startTimeInput)] := by
    have : (clearLoopInterval (clearError s)).nextPlayer = s.nextPlayer := by
      unfold clearLoopInterval; split <;> rfl
    rw [heq]
    simp only [constructPlayer, issue, List.append_assoc, List.singleton_append]
    rw [clearLoopInterval_commands, this]
    rfl
  have hpl : (applyLoop s).player = some { handle := s.nextPlayer, videoId := id } := by
    rw [heq]
    have : (clearLoopInterval (clearError s)).nextPlayer = s.nextPlayer := by
      unfold clearLoopInterval; split <;> rfl
    simp [constructPlayer, issue, this]
  refine ⟨hcmd, hpl, ?_, ?_, hs'.2⟩
  · rw [liveSessions_concat, hs.1, hplayer]
    simp [liveAfter]
  · rw [hs'.1, hpl]; rfl

/-- Witness of `applyLoop_replaces_player`: a page that plays `dQw4w9WgXcQ` on
player `1` is asked to loop `aaaaaaaaaaa` from `7` to `30`. -/
theorem applyLoop_replaces_player_witness :
    (applyLoop (runEvents otherVideoRequested)).commands
      = (runEvents otherVideoRequested).commands ++
          [.destroy 1, .construct 2 (utf16 "aaaaaaaaaaa") 1 1 (.num (.fin 7))]
    ∧ (applyLoop (runEvents otherVideoRequested)).player
      = some { handle := 2, videoId := utf16 "aaaaaaaaaaa" }
    ∧ liveSessions (applyLoop (runEvents otherVideoRequested)).commands = [2] :=
  match applyLoop_replaces_player (runEvents otherVideoRequested) ⟨otherVideoRequested, rfl⟩
      { handle := 1, videoId := utf16 "dQw4w9WgXcQ" } (utf16 "aaaaaaaaaaa")
      (by decide!) (by decide!) (by decide!) (by decide!) (by decide!) (by decide!) with
  | ⟨h1, h2, _, h4, _⟩ => ⟨by rw [h1]; decide!, by rw [h2]; decide!, by rw [h4]; decide!⟩

/-! ## Timers -/

/-- C12: after the player reports `playing` twice in a row, two timers run:
the handler starts the second without cancelling the first, and
`loopInterval` holds only the second. -/
theorem playingTwice_two_timers :
    (runEvents playingTwice).timers = [1, 2]
    ∧ (runEvents playingTwice).timers.length = 2
    ∧ (runEvents playingTwice).loopInterval = some 2 := by
  decide!

/-- C15: in the reachable state after two `playing` reports in a row,
`stopAndClear` cancels only the timer that `loopInterval` holds: timer `1`
keeps running. -/
theorem stopAndClear_leaves_timer :
    (stopAndClear (runEvents playingTwice)).timers = [1]
    ∧ (stopAndClear (runEvents playingTwice)).player = none := by
  decide!

/-- C19: in the reachable state after two `playing` reports in a row, a
session exists and `onPlayerError` cancels only the timer that `loopInterval`
holds: timer `1` keeps running after the error. -/
theorem onPlayerError_leaves_timer :
    (runEvents playingTwice).player = some { handle := 1, videoId := utf16 "dQw4w9WgXcQ" }
    ∧ (step (runEvents playingTwice) (.error 5)).timers = [1] := by
  decide!

theorem clearLoopInterval_frame (s : State) :
    (clearLoopInterval s).loopInterval = s.loopInterval
    ∧ (clearLoopInterval s).nextTimer = s.nextTimer
    ∧ (clearLoopInterval s).nextPlayer = s.nextPlayer := by
  unfold clearLoopInterval; split <;> exact ⟨rfl, rfl, rfl⟩

theorem applyLoop_timers (s : State) :
    (applyLoop s).timers = (clearLoopInterval s).timers
    ∧ (applyLoop s).loopInterval = s.loopInterval
    ∧ (applyLoop s).nextTimer = s.nextTimer := by
  have ht : (clearLoopInterval (clearError s)).timers = (clearLoopInterval s).timers := by
    unfold clearLoopInterval clearError
    cases s.loopInterval <;> rfl
  obtain ⟨hl, hn, _⟩ := clearLoopInterval_frame (clearError s)
  rw [applyLoop_eq]
  cases getVideoId s.videoUrlInput with
  | none => exact ⟨ht, hl, hn⟩
  | some id =>
    simp only
    split
    · exact ⟨ht, hl, hn⟩
    · split
      · exact ⟨ht, hl, hn⟩
      · cases s.player with
        | none => exact ⟨ht, hl, hn⟩
        | some p =>
          simp only
          split
          · exact ⟨ht, hl, hn⟩
          · exact ⟨ht, hl, hn⟩

theorem stopAndClear_timers (s : State) :
    (stopAndClear s).timers = (clearLoopInterval s).timers
    ∧ (stopAndClear s).loopInterval = s.loopInterval
    ∧ (stopAndClear s).nextTimer = s.nextTimer := by
  obtain ⟨hl, hn, _⟩ := clearLoopInterval_frame s
  unfold stopAndClear
  simp only
  cases (clearLoopInterval s).player with
  | none => exact ⟨rfl, hl, hn⟩
  | some p => exact ⟨rfl, hl, hn⟩

theorem leaked_clearLoopInterval {s : State} {h : Nat} (hl : Leaked s h) :
    h ∈ (clearLoopInterval s).timers := by
  unfold clearLoopInterval
  cases hli : s.loopInterval with
  | none => exact hl.1
  | some t =>
    have hne : h ≠ t := fun e => hl.2.1 (by rw [hli, e])
    simp [List.mem_filter, hl.1, hne]

theorem leaked_step {s : State} {h : Nat} (hl : Leaked s h) (e : Event) :
    Leaked (step s e) h := by
  have hc := leaked_clearLoopInterval hl
  obtain ⟨cl, cn, _⟩ := clearLoopInterval_frame s
  cases e with
  | setInputs url st en => exact hl
  | applyLoop =>
    obtain ⟨h1, h2, h3⟩ := applyLoop_timers s
    exact ⟨by rw [show (step s .applyLoop).timers = _ from h1]; exact hc,
      by rw [show (step s .applyLoop).loopInterval = _ from h2]; exact hl.2.1,
      by rw [show (step s .applyLoop).nextTimer = _ from h3]; exact hl.2.2⟩
  | stopAndClear =>
    obtain ⟨h1, h2, h3⟩ := stopAndClear_timers s
    exact ⟨by rw [show (step s .stopAndClear).timers = _ from h1]; exact hc,
      by rw [show (step s .stopAndClear).loopInterval = _ from h2]; exact hl.2.1,
      by rw [show (step s .stopAndClear).nextTimer = _ from h3]; exact hl.2.2⟩
  | stateChange data =>
    show Leaked (onStateChange s data) h
    unfold onStateChange
    split
    · refine ⟨by simp [setLoopInterval, hl.1], ?_, ?_⟩
      · have := hl.2.2
        simp only [setLoopInterval, ne_eq, Option.some.injEq]
        omega
      · have := hl.2.2
        simp only [setLoopInterval]
        omega
    · exact ⟨hc, by rw [cl]; exact hl.2.1, by rw [cn]; exact hl.2.2⟩
  | error code =>
    obtain ⟨_, _, h3, h4⟩ := step_error_frame s code
    have h5 : (step s (.error code)).nextTimer = s.nextTimer := by
      rcases onPlayerError_eq s code with ⟨_, he⟩ | ⟨p, msg, _, he⟩
      · have hs : step s (.error code) = clearLoopInterval s := by simp only [step, he]
        rw [hs, cn]
      · have hs : step s (.error code)
            = { clearLoopInterval s with errorMessage := .html msg } := by simp only [step, he]
        rw [hs]; exact cn
    exact ⟨by rw [h3]; exact hc, by rw [h4]; exact hl.2.1, by rw [h5]; exact hl.2.2⟩
  | tick t =>
    show Leaked (checkLoop s t) h
    unfold checkLoop
    simp only
    split
    · split
      · exact hl
      · exact hl
    · exact hl

/-- A timer whose handle the script has lost runs for ever: no sequence of
events stops it. -/
theorem leaked_forever {s : State} {h : Nat} (hl : Leaked s h) (events : List Event) :
    Leaked (events.foldl step s) h := by
  induction events generalizing s with
  | nil => exact hl
  | cons e es ih => exact ih (leaked_step hl e)

/-- After two `playing` reports in a row timer `1` is lost, and it runs after
every further sequence of events. -/
theorem playingTwice_leaks (events : List Event) :
    1 ∈ (runEvents (playingTwice ++ events)).timers := by
  have h0 : Leaked (runEvents playingTwice) 1 := by
    refine ⟨by decide!, by decide!, by decide!⟩
  have := leaked_forever h0 events
  unfold runEvents at this ⊢
  rw [List.foldl_append]
  exact this.1

/-! ## What `stopAndClear` and `onPlayerError` do achieve -/

theorem timers_clearLoopInterval_of_tracked {s : State} (h : TimerTracked s) :
    (clearLoopInterval s).timers = [] := by
  unfold clearLoopInterval
  cases hli : s.loopInterval with
  | none =>
    simp only
    cases hts : s.timers with
    | nil => rfl
    | cons t ts =>
      have := h t (by rw [hts]; exact List.mem_cons_self _ _)
      rw [hli] at this
      simp at this
  | some t₀ =>
    simp only [List.filter_eq_nil_iff]
    intro t ht
    have := h t ht
    rw [hli] at this
    simp only [Option.some.injEq] at this
    simp [this]

/-- In every state `stopAndClear` leaves no player (the one it held is destroyed
once), empty inputs and an empty error region, and the timer that
`loopInterval` holds does not run; if every running timer was that one, none
runs; and a second `stopAndClear` changes nothing. -/
theorem stopAndClear_spec (s : State) :
    (stopAndClear s).player = none
    ∧ (stopAndClear s).commands
        = s.commands ++ (s.player.map (fun p => Command.destroy p.handle)).toList
    ∧ (stopAndClear s).videoUrlInput = []
    ∧ (stopAndClear s).startTimeInput = []
    ∧ (stopAndClear s).endTimeInput = []
    ∧ (stopAndClear s).errorMessage = .text []
    ∧ loopActive (stopAndClear s) = false
    ∧ (TimerTracked s → (stopAndClear s).timers = [])
    ∧ stopAndClear (stopAndClear s) = stopAndClear s := by
  have hp := clearLoopInterval_player s
  have hc := clearLoopInterval_commands s
  obtain ⟨ht, hl, _⟩ := stopAndClear_timers s
  have hact : loopActive (stopAndClear s) = false := by
    have h0 := loopActive_clearLoopInterval s
    have hl0 := (clearLoopInterval_frame s).1
    unfold loopActive at h0 ⊢
    rw [ht, hl, ← hl0]
    exact h0
  have hidem : stopAndClear (stopAndClear s) = stopAndClear s := by
    obtain ⟨player, loopInterval, timers, nextTimer, nextPlayer, url, st, en, err, cmds⟩ := s
    cases player <;> cases loopInterval <;>
      simp [stopAndClear, clearLoopInterval, issue, clearError, List.filter_filter]
  refine ⟨?_, ?_, ?_, ?_, ?_, ?_, hact, ?_, hidem⟩
  · unfold stopAndClear clearError
    simp only
    split <;> simp_all
  · unfold stopAndClear clearError
    simp only
    cases hpl : s.player with
    | none =>
      rw [hpl] at hp
      simp [hp, hc]
    | some p =>
      rw [hpl] at hp
      simp [hp, hc, issue]
  · unfold stopAndClear clearError; simp only
  · unfold stopAndClear clearError; simp only
  · unfold stopAndClear clearError; simp only
  · unfold stopAndClear clearError; simp only
  · intro htr
    rw [ht]; exact timers_clearLoopInterval_of_tracked htr

/-- In every state with a player `onPlayerError` returns normally, keeps the
player and issues no command, and the timer that `loopInterval` holds does
not run afterwards; if every running timer was that one, none runs. -/
theorem onPlayerError_keeps_session (s : State) (p : Player) (code : Int)
    (hplayer : s.player = some p) :
    ∃ s₁, onPlayerError s code = .ok s₁
      ∧ s₁.player = s.player
      ∧ s₁.commands = s.commands
      ∧ loopActive s₁ = false
      ∧ (TimerTracked s → s₁.timers = []) := by
  rcases onPlayerError_eq s code with ⟨hnone, _⟩ | ⟨q, msg, _, he⟩
  · rw [hplayer] at hnone; simp at hnone
  · refine ⟨_, he, clearLoopInterval_player s, clearLoopInterval_commands s, ?_, ?_⟩
    · exact loopActive_clearLoopInterval s
    · intro htr
      exact timers_clearLoopInterval_of_tracked htr

end YTLooper
